import Mathlib

/-!
Shallow embedding of the policy-validation and dependency-provenance core of
the `cargo-deny` repository (source files `src/bans/cfg.rs` and `src/diag.rs`).

Conventions of the embedding:
* Rust `String` becomes Lean `String`; `u32`/`usize` become `Nat`.
* `semver::VersionReq` (external crate) is modelled as its textual version
  constraint, an opaque value whose only relevant structure is a total order
  (the spec only uses "compared first by name, then by constraint").
* `std::ops::Range<u32>` spans become `Nat × Nat` (start, end).
* Text buffers written with `write!`/`writeln!` are Lean `String`s built by
  appending; byte offsets into the synthesized lockfile text are modelled as
  character offsets (the round-trip properties are unit-independent).
* Fallible operations (`Result`, panics via `unwrap`) become `Option`/`Except`.
-/

/-- Modelled from the spec: the lint-level policy knob (`crate::LintLevel`,
declared outside the supplied sources); the spec names warn/deny levels and
`cargo-deny` also has an allow level.  Only carried through `validate`. -/
inductive LintLevel where
  | Allow
  | Warn
  | Deny
deriving DecidableEq

/-- From `src/bans/cfg.rs`: how duplicate graphs are highlighted. -/
inductive GraphHighlight where
  | SimplestPath
  | LowestVersion
  | All
deriving DecidableEq

/-- From `src/bans/cfg.rs` `GraphHighlight::simplest`. -/
def GraphHighlight.simplest (g : GraphHighlight) : Bool :=
  g = GraphHighlight.SimplestPath || g = GraphHighlight.All

/-- From `src/bans/cfg.rs` `GraphHighlight::lowest_version`. -/
def GraphHighlight.lowest_version (g : GraphHighlight) : Bool :=
  g = GraphHighlight.LowestVersion || g = GraphHighlight.All

/-- From `src/bans/cfg.rs`: the name of a crate plus its version constraint
(`VersionReq` modelled as its text). -/
structure CrateId where
  name : String
  version : String
deriving DecidableEq

/-- From `src/bans/cfg.rs`: `fn any() -> VersionReq`, the serde default
version constraint matching any version. -/
def anyVersion : String := "*"

/-- From `src/bans/cfg.rs`: a crate id together with an optional skip depth. -/
structure TreeSkip where
  id : CrateId
  depth : Option Nat
deriving DecidableEq

/-- Modelled from the spec: `crate::Spanned` (declared outside the supplied
sources) pairs a value with a source byte range used only for diagnostics;
ordering and equality of span-tagged values look only at the value. -/
structure Spanned (α : Type) where
  value : α
  span : Nat × Nat
deriving DecidableEq

/-- Lexicographic strict comparison of character lists, the model of Rust's
`Ord` on strings (modelled at character granularity). -/
def strLtb : List Char → List Char → Bool
  | _, [] => false
  | [], _ :: _ => true
  | a :: as, b :: bs =>
    if a.toNat < b.toNat then true
    else if b.toNat < a.toNat then false
    else strLtb as bs

/-- Strict string order derived from `strLtb`. -/
def strLt (a b : String) : Prop :=
  strLtb a.data b.data = true

/-- Non-strict string order: not strictly greater. -/
def strLe (a b : String) : Prop :=
  strLtb b.data a.data = false

/-- Modelled from the spec: `super::KrateId` (declared in `src/bans/mod.rs`,
outside the supplied sources): a crate name plus version constraint, the
identity used for sorting and binary search. -/
structure KrateId where
  name : String
  version : String
deriving DecidableEq

/-- Strict lexicographic order on crate identities: name first, then version
constraint (the derived `Ord` of the Rust struct). -/
def KrateId.ltP (a b : KrateId) : Prop :=
  strLt a.name b.name ∨ (a.name = b.name ∧ strLt a.version b.version)

instance (a b : String) : Decidable (strLt a b) := by
  unfold strLt
  infer_instance

instance (a b : String) : Decidable (strLe a b) := by
  unfold strLe
  infer_instance

instance (a b : KrateId) : Decidable (KrateId.ltP a b) := by
  unfold KrateId.ltP
  infer_instance

/-- Non-strict crate-identity order. -/
def KrateId.leP (a b : KrateId) : Prop :=
  KrateId.ltP a b ∨ a = b

instance (a b : KrateId) : Decidable (KrateId.leP a b) := by
  unfold KrateId.leP
  infer_instance

/-- Three-way comparison on crate identities (Rust `Ord::cmp`). -/
def KrateId.cmp (a b : KrateId) : Ordering :=
  if KrateId.ltP a b then Ordering.lt
  else if KrateId.ltP b a then Ordering.gt
  else Ordering.eq

/-- From `src/bans/cfg.rs`: `type Skrate = Spanned<KrateId>`. -/
def Skrate := Spanned KrateId
deriving DecidableEq

/-- Comparison of span-tagged identities looks only at the value
(the `Ord` of `Spanned` compares the inner value, per the spec). -/
def Skrate.cmp (a b : Skrate) : Ordering :=
  KrateId.cmp a.value b.value

/-- The sorting relation used for `par_sort` on the three policy lists. -/
def skrateLEP (a b : Skrate) : Prop :=
  KrateId.leP a.value b.value

instance (a b : Skrate) : Decidable (skrateLEP a b) := by
  unfold skrateLEP
  infer_instance

instance : DecidableRel skrateLEP := fun a b => by
  unfold skrateLEP
  infer_instance

/-- Default element used for (always in-bounds) indexing into sorted lists. -/
def dfltSkrate : Skrate := ⟨⟨"", ""⟩, (0, 0)⟩

/-- From `src/diag.rs`: diagnostic severities (only the error severity is
constructed by the supplied sources). -/
inductive Severity where
  | Bug
  | Error
  | Warning
  | Note
  | Help
deriving DecidableEq

/-- Modelled after `codespan_reporting::diagnostic::Label`: a file id, a span
and a message. -/
structure Label where
  file_id : Nat
  span : Nat × Nat
  message : String
deriving DecidableEq

/-- Modelled after `codespan_reporting::diagnostic::Diagnostic`: severity, a
message, one primary label and secondary labels. -/
structure Diagnostic where
  severity : Severity
  message : String
  primary : Label
  secondary : List Label
deriving DecidableEq

/-- The `Diagnostic::new_error` constructor. -/
def Diagnostic.new_error (message : String) (primary : Label) : Diagnostic :=
  ⟨Severity.Error, message, primary, []⟩

/-- The `Diagnostic::with_secondary_labels` builder. -/
def Diagnostic.with_secondary_labels (d : Diagnostic) (ls : List Label) : Diagnostic :=
  { d with secondary := d.secondary ++ ls }

/-- From `src/bans/cfg.rs` `Config::validate`: the `add_diag` closure.  Builds
the conflict diagnostic for two span-tagged entries paired with their category
names; the entry whose span starts later becomes the primary label and its
category is printed first in the message. -/
def addDiag (cfg_file : Nat) (first second : Skrate × String) : Diagnostic :=
  let flabel : Label := ⟨cfg_file, first.1.span, "marked as `" ++ first.2 ++ "`"⟩
  let slabel : Label := ⟨cfg_file, second.1.span, "marked as `" ++ second.2 ++ "`"⟩
  if flabel.span.1 > slabel.span.1 then
    (Diagnostic.new_error
      ("a license id was specified in both `" ++ first.2 ++ "` and `" ++ second.2 ++ "`")
      flabel).with_secondary_labels [slabel]
  else
    (Diagnostic.new_error
      ("a license id was specified in both `" ++ second.2 ++ "` and `" ++ first.2 ++ "`")
      slabel).with_secondary_labels [flabel]

/-- Rust `slice::binary_search` loop body on a sorted `List Skrate`, with
explicit window `[left, right)` and a fuel argument bounding the number of
iterations (the window shrinks strictly each round, so `length + 1` fuel is
always enough). -/
def bsGo (l : List Skrate) (key : Skrate) : Nat → Nat → Nat → Option Nat
  | 0, _, _ => none
  | fuel + 1, left, right =>
    if left < right then
      let mid := (left + right) / 2
      match Skrate.cmp (l.getD mid dfltSkrate) key with
      | Ordering.lt => bsGo l key fuel (mid + 1) right
      | Ordering.gt => bsGo l key fuel left mid
      | Ordering.eq => some mid
    else none

/-- Rust `slice::binary_search`: `some i` when an element comparing equal to
`key` is found at index `i`, `none` otherwise. -/
def binary_search (l : List Skrate) (key : Skrate) : Option Nat :=
  bsGo l key (l.length + 1) 0 l.length

/-- From `src/bans/cfg.rs`: the raw, unvalidated `[bans]` configuration. -/
structure Config where
  multiple_versions : LintLevel
  highlight : GraphHighlight
  deny : List (Spanned CrateId)
  allow : List (Spanned CrateId)
  skip : List (Spanned CrateId)
  skip_tree : List (Spanned TreeSkip)

/-- From `src/bans/cfg.rs`: the `Config::default` value. -/
def Config.default : Config :=
  ⟨LintLevel.Warn, GraphHighlight.All, [], [], [], []⟩

/-- From `src/bans/cfg.rs`: the validated configuration. -/
structure ValidConfig where
  file_id : Nat
  multiple_versions : LintLevel
  highlight : GraphHighlight
  denied : List Skrate
  allowed : List Skrate
  skipped : List Skrate
  tree_skipped : List (Spanned TreeSkip)
deriving DecidableEq

/-- From `src/bans/cfg.rs` `Config::validate`: the `from` conversion of a
span-tagged `CrateId` into a span-tagged `KrateId`. -/
def fromSpanned (s : Spanned CrateId) : Skrate :=
  ⟨⟨s.value.name, s.value.version⟩, s.span⟩

/-- The crate identity carried by a raw policy entry. -/
def idOf (s : Spanned CrateId) : KrateId :=
  ⟨s.value.name, s.value.version⟩

/-- Diagnostics pushed for one entry of the sorted `denied` list: a deny/allow
conflict if the identity binary-searches into `allowed`, then a deny/skip
conflict if it binary-searches into `skipped` (the body of the first `for`
loop of `Config::validate`). -/
def denyEmit (cfg_file : Nat) (allowed skipped : List Skrate) (d : Skrate) : List Diagnostic :=
  (match binary_search allowed d with
   | some ai => [addDiag cfg_file (d, "deny") (allowed.getD ai dfltSkrate, "allow")]
   | none => []) ++
  (match binary_search skipped d with
   | some si => [addDiag cfg_file (d, "deny") (skipped.getD si dfltSkrate, "skip")]
   | none => [])

/-- Diagnostics pushed for one entry of the sorted `allowed` list: an
allow/skip conflict if the identity binary-searches into `skipped` (the body
of the second `for` loop of `Config::validate`). -/
def allowEmit (cfg_file : Nat) (skipped : List Skrate) (a : Skrate) : List Diagnostic :=
  match binary_search skipped a with
  | some si => [addDiag cfg_file (a, "allow") (skipped.getD si dfltSkrate, "skip")]
  | none => []

/-- From `src/bans/cfg.rs`: `Config::validate`.  Sorts the three policy lists
(`par_sort` is a stable sort, modelled by insertion sort), collects every
conflict diagnostic from the three binary-search passes, and either returns
them all as the error or builds the `ValidConfig`. -/
def Config.validate (cfg : Config) (cfg_file : Nat) :
    Except (List Diagnostic) ValidConfig :=
  let denied := List.insertionSort skrateLEP (cfg.deny.map fromSpanned)
  let allowed := List.insertionSort skrateLEP (cfg.allow.map fromSpanned)
  let skipped := List.insertionSort skrateLEP (cfg.skip.map fromSpanned)
  let diagnostics :=
    allowed.foldl (fun acc a => acc ++ allowEmit cfg_file skipped a)
      (denied.foldl (fun acc d => acc ++ denyEmit cfg_file allowed skipped d) [])
  if diagnostics.isEmpty then
    Except.ok ⟨cfg_file, cfg.multiple_versions, cfg.highlight, denied, allowed, skipped,
      cfg.skip_tree⟩
  else
    Except.error diagnostics

/-- The diagnostics list accumulated by `Config::validate`'s three
conflict-detection passes, in emission order. -/
def validateDiags (cfg : Config) (cfg_file : Nat) : List Diagnostic :=
  let denied := List.insertionSort skrateLEP (cfg.deny.map fromSpanned)
  let allowed := List.insertionSort skrateLEP (cfg.allow.map fromSpanned)
  let skipped := List.insertionSort skrateLEP (cfg.skip.map fromSpanned)
  allowed.foldl (fun acc a => acc ++ allowEmit cfg_file skipped a)
    (denied.foldl (fun acc d => acc ++ denyEmit cfg_file allowed skipped d) [])

/-- A crate identity occurring in two policy lists (the notion of a
cross-category conflict). -/
def hasConflict (l₁ l₂ : List (Spanned CrateId)) : Prop :=
  ∃ x ∈ l₁, ∃ y ∈ l₂, idOf x = idOf y

instance (l₁ l₂ : List (Spanned CrateId)) : Decidable (hasConflict l₁ l₂) := by
  unfold hasConflict
  infer_instance

/-- The number of pairs of entries, one from each list, carrying the same
crate identity. -/
def conflictPairs (l₁ l₂ : List (Spanned CrateId)) : Nat :=
  (l₁.map (fun x => l₂.countP (fun y => decide (idOf y = idOf x)))).sum

/-- Modelled from the spec: `crate::Kid` (declared outside the supplied
sources), the unique identifier of a resolved crate node; modelled as its
textual form with its derived string order. -/
abbrev Kid := String

/-- From `src/diag.rs`: a diagnostic plus the 0..2 crate ids it concerns
(the `SmallVec` is an optimization, modelled as a plain list). -/
structure Diag where
  diag : Diagnostic
  kids : List Kid
deriving DecidableEq

/-- From `src/diag.rs`: `Diag::new`. -/
def Diag.new (d : Diagnostic) : Diag :=
  ⟨d, []⟩

/-- From `src/diag.rs`: an ordered collection of `Diag` with an optional
default crate id used to stamp the first un-attributed diagnostic. -/
structure Pack where
  diags : List Diag
  kid : Option Kid
deriving DecidableEq

/-- From `src/diag.rs`: `Pack::new`. -/
def Pack.new : Pack :=
  ⟨[], none⟩

/-- From `src/diag.rs`: `Pack::with_kid`. -/
def Pack.with_kid (k : Kid) : Pack :=
  ⟨[], some k⟩

/-- From `src/diag.rs`: `Pack::push`.  If the incoming diagnostic has no
associated crates and the pack still holds a default crate id, the id is
`take`n (cleared) and pushed onto the diagnostic's crate list. -/
def Pack.push (p : Pack) (d : Diag) : Pack :=
  if d.kids.isEmpty then
    match p.kid with
    | some k => ⟨p.diags ++ [⟨d.diag, d.kids ++ [k]⟩], none⟩
    | none => ⟨p.diags ++ [d], none⟩
  else
    ⟨p.diags ++ [d], p.kid⟩

/-- From `src/diag.rs`: `Pack::is_empty`. -/
def Pack.is_empty (p : Pack) : Bool :=
  p.diags.isEmpty

/-- A sequence of pushes into a pack. -/
def Pack.pushAll (p : Pack) (ds : List Diag) : Pack :=
  ds.foldl Pack.push p

/-- The number of pushed diagnostics whose stored crate list differs from the
one they were pushed with, i.e. the number of diagnostics the pack stamped
with its default crate id. -/
def stampCount (p : Pack) (ds : List Diag) : Nat :=
  (((p.pushAll ds).diags.drop p.diags.length).zip ds).countP
    (fun x => decide (x.1.kids ≠ x.2.kids))

/-- The diagnostic as stored by `Pack::push`: stamped with the pack's
default crate id exactly when it arrives with no crates while the pack still
holds a default. -/
def pushedDiag (p : Pack) (d : Diag) : Diag :=
  if d.kids.isEmpty then
    match p.kid with
    | some k => ⟨d.diag, d.kids ++ [k]⟩
    | none => d
  else d

/-- Modelled from the spec: `crate::Krate` (declared outside the supplied
sources): the metadata of one resolved graph node — name, version, unique id,
optional registry/source descriptor, and the manifest path (modelled as its
list of path components). -/
structure Krate where
  name : String
  version : String
  id : String
  source : Option String
  manifest_path : List String
deriving DecidableEq

/-- Models `std::path::Path::parent` on the component-list representation of
a path: the empty path has no parent, any other path drops its last
component. -/
def pathParent : List String → Option (List String)
  | [] => none
  | x :: xs => some (x :: xs).dropLast

/-- From `src/diag.rs`: the kinds of dependency edges. -/
inductive DepKind where
  | Normal
  | Dev
  | Build
deriving DecidableEq

/-- Modelled from the spec: the resolved dependency graph (`crate::Krates`,
declared outside the supplied sources) with `n` nodes: per-node crate
metadata, and per-node incoming (consumer) edge lists carrying the consumer
node and the dependency kind, in the graph's enumeration order. -/
structure Krates (n : Nat) where
  krate : Fin n → Krate
  incoming : Fin n → List (Fin n × DepKind)

/-- From `src/diag.rs`: `type Span = Range<u32>`, a byte range. -/
abbrev Span := Nat × Nat

/-- From `src/diag.rs`: the per-node span index into the synthesized
lockfile text. -/
structure KrateSpans where
  spans : List Span
deriving DecidableEq

/-- The one line `KrateSpans::new` writes for a crate: name, version, then
the source descriptor if present, else the parent directory of the manifest
path; `none` models the `unwrap` panic when neither exists. -/
def synthLine (k : Krate) : Option String :=
  match k.source with
  | some src => some (k.name ++ " " ++ k.version ++ " " ++ src)
  | none =>
    match pathParent k.manifest_path with
    | some p => some (k.name ++ " " ++ k.version ++ " " ++ String.intercalate "/" p)
    | none => none

/-- One iteration of the `KrateSpans::new` loop: remember the offset before
the `writeln!`, append the line and its newline, and record the span ending
just before the newline. -/
def spanStep (acc : List Span × String) (k : Krate) : Option (List Span × String) :=
  match synthLine k with
  | none => none
  | some line =>
    let span_start := acc.2.length
    let sl := acc.2 ++ line ++ "\n"
    let span_end := sl.length - 1
    some (acc.1 ++ [((span_start, span_end) : Span)], sl)

/-- From `src/diag.rs`: `KrateSpans::new`.  Walks the graph's nodes in
enumeration order, synthesizing one lockfile line per crate and recording
each line's span; `none` models the panic on a crate with neither a source
nor a manifest parent. -/
def KrateSpans.new {n : Nat} (g : Krates n) : Option (KrateSpans × String) :=
  (((List.finRange n).map g.krate).foldlM spanStep ([], "")).map
    (fun r => (⟨r.1⟩, r.2))

/-- Extracting a span from the synthesized text (modelled at character
granularity): the characters from the span's start up to its end. -/
def sliceSpan (sl : String) (sp : Span) : List Char :=
  (sl.data.drop sp.1).take (sp.2 - sp.1)

/-- Default crate metadata used for (always in-bounds) list indexing. -/
def dfltKrate : Krate := ⟨"", "", "", none, []⟩

/-- From `src/diag.rs`: the per-node state of the graph walk — crate
metadata, node id and the dependency-kind annotation of the edge through
which the node was reached (empty for the root). -/
structure NodePrint (n : Nat) where
  krate : Krate
  id : Fin n
  kind : String

/-- From `src/diag.rs`: the glyph rendering of the indentation stack: one
continuation (or blank) column per ancestor that still has pending siblings,
then a tee or ell connector for the node itself. -/
def levelPrefix (levels : List Bool) : String :=
  match levels.getLast? with
  | none => ""
  | some last =>
    String.join (levels.dropLast.map (fun c => (if c then "│" else " ") ++ "   ")) ++
      ((if last then "├" else "└") ++ "── ")

/-- From `src/diag.rs`: the label line printed for a node: the kind
annotation when non-empty, name, version, and the revisit marker. -/
def labelLine (k : Krate) (kind star : String) : String :=
  if kind = "" then k.name ++ " v" ++ k.version ++ star ++ "\n"
  else "(" ++ kind ++ ") " ++ k.name ++ " v" ++ k.version ++ star ++ "\n"

/-- From `src/diag.rs`: the rendering of an edge kind. -/
def kindStr : DepKind → String
  | DepKind.Normal => ""
  | DepKind.Dev => "dev"
  | DepKind.Build => "build"

/-- The sorting relation of `parents.sort_by_key(|n| &n.krate.id)`. -/
def nodeLE {n : Nat} (a b : NodePrint n) : Prop :=
  strLe a.krate.id b.krate.id

instance {n : Nat} : DecidableRel (nodeLE (n := n)) := fun a b => by
  unfold nodeLE
  infer_instance

/-- From `src/diag.rs` `Grapher::write_parent`: gather the consumers of a
node from its incoming edges and sort them by crate id (a stable sort,
modelled by insertion sort) for deterministic output. -/
def gatherParents {n : Nat} (g : Krates n) (id : Fin n) : List (NodePrint n) :=
  List.insertionSort nodeLE
    ((g.incoming id).map (fun e => ⟨g.krate e.1, e.1, kindStr e.2⟩))

/-- From `src/diag.rs`: `Grapher::write_parents`, abstracted over the
recursive call `step`: walk the sorted consumers in order, pushing onto the
indentation stack whether each consumer still has siblings below it, and
threading the output buffer and visited set. -/
def write_parents {n : Nat}
    (step : NodePrint n → String → Finset (Fin n) → List Bool →
      Option (String × Finset (Fin n))) :
    List (NodePrint n) → String → Finset (Fin n) → List Bool →
      Option (String × Finset (Fin n))
  | [], out, visited, _ => some (out, visited)
  | p :: rest, out, visited, levels =>
    match step p out visited (levels ++ [!rest.isEmpty]) with
    | none => none
    | some (o, v) => write_parents step rest o v levels

/-- From `src/diag.rs`: `Grapher::write_parent`.  The Rust
`visited.insert(np.id)` returning whether the node is new is modelled as a
membership test plus an insertion; the recursion is bounded by a fuel
argument (`n + 1` always suffices because the visited set grows strictly
before every recursive descent).  On a revisit only the starred label line
is printed and no consumer is expanded. -/
def write_parent {n : Nat} (g : Krates n) :
    Nat → NodePrint n → String → Finset (Fin n) → List Bool →
      Option (String × Finset (Fin n))
  | 0, _, _, _, _ => none
  | fuel + 1, np, out, visited, levels =>
    if np.id ∈ visited then
      some (out ++ levelPrefix levels ++ labelLine np.krate np.kind " (*)", visited)
    else
      write_parents (fun p o v l => write_parent g fuel p o v l)
        (gatherParents g np.id)
        (out ++ levelPrefix levels ++ labelLine np.krate np.kind "")
        (insert np.id visited) levels

/-- Modelled from the spec: `Krates::nid_for_kid` (declared outside the
supplied sources), looking up a graph node by crate id. -/
def nidForKid {n : Nat} (g : Krates n) (kid : Kid) : Option (Fin n) :=
  (List.finRange n).find? (fun i => (g.krate i).id = kid)

/-- The failures of `write_graph`: the typed lookup failure (`context
("unable to find node")`), plus the fuel-exhaustion artifact of the
embedding, proved unreachable. -/
inductive GraphError where
  | lookupFailure
  | fuelExhausted
deriving DecidableEq

deriving instance DecidableEq for Except

/-- From `src/diag.rs`: `Grapher::write_graph`.  Resolves the queried crate
id to a node (failing with the lookup error when absent) and renders the
inverted dependency tree from an empty output buffer, empty visited set and
empty indentation stack. -/
def write_graph {n : Nat} (g : Krates n) (kid : Kid) : Except GraphError String :=
  match nidForKid g kid with
  | none => Except.error GraphError.lookupFailure
  | some node_id =>
    match write_parent g (n + 1) ⟨g.krate node_id, node_id, ""⟩ "" ∅ [] with
    | none => Except.error GraphError.fuelExhausted
    | some (out, _) => Except.ok out

/-- Shorthand for a span-tagged raw policy entry. -/
def rawEntry (name version : String) (a b : Nat) : Spanned CrateId :=
  ⟨⟨name, version⟩, (a, b)⟩

/-- A raw config with one crate denied and the same crate allowed, the
allow entry earlier in the source than the deny entry. -/
def cfgConflict : Config :=
  ⟨LintLevel.Warn, GraphHighlight.All,
    [rawEntry "foo" "*" 10 13], [rawEntry "foo" "*" 0 3], [], []⟩

/-- A raw config whose allow list carries the same identity twice, both
conflicting with a single deny entry. -/
def cfgDupAllow : Config :=
  ⟨LintLevel.Warn, GraphHighlight.All,
    [rawEntry "foo" "*" 10 13], [rawEntry "foo" "*" 0 3, rawEntry "foo" "*" 5 8], [], []⟩

/-- A conflict-free raw config with unsorted deny entries. -/
def cfgOk : Config :=
  ⟨LintLevel.Deny, GraphHighlight.SimplestPath,
    [rawEntry "b" "*" 0 1, rawEntry "a" "*" 2 3], [rawEntry "c" "*" 4 5], [], []⟩

/-- A two-node graph in which the target node `t` is consumed twice by the
same crate `p`, once as a normal and once as a build dependency. -/
def egA : Krates 2 :=
  ⟨fun i => if i = 0 then ⟨"t", "1", "T", none, ["r", "t", "Cargo.toml"]⟩
            else ⟨"p", "1", "P", none, ["r", "p", "Cargo.toml"]⟩,
   fun i => if i = 0 then [((1 : Fin 2), DepKind.Normal), ((1 : Fin 2), DepKind.Build)]
            else []⟩

/-- The same graph snapshot as `egA` with the two incoming edges of the
target enumerated in the opposite order. -/
def egB : Krates 2 :=
  ⟨egA.krate,
   fun i => if i = 0 then [((1 : Fin 2), DepKind.Build), ((1 : Fin 2), DepKind.Normal)]
            else []⟩

/-- A two-node graph in which the target `t` has two distinct consumers. -/
def egC : Krates 3 :=
  ⟨fun i => if i = 0 then ⟨"t", "1", "T", none, ["r", "t", "Cargo.toml"]⟩
            else if i = 1 then ⟨"p", "1", "P", none, ["r", "p", "Cargo.toml"]⟩
            else ⟨"q", "1", "Q", none, ["r", "q", "Cargo.toml"]⟩,
   fun i => if i = 0 then [((2 : Fin 3), DepKind.Normal), ((1 : Fin 3), DepKind.Normal)]
            else []⟩

/-- The same graph snapshot as `egC` with the target's incoming edges
enumerated in the opposite order. -/
def egD : Krates 3 :=
  ⟨egC.krate,
   fun i => if i = 0 then [((1 : Fin 3), DepKind.Normal), ((2 : Fin 3), DepKind.Normal)]
            else []⟩

/-- A two-node graph with a consumer cycle: each node consumes the other. -/
def egCycle : Krates 2 :=
  ⟨fun i => if i = 0 then ⟨"a", "1", "A", none, ["r", "a", "Cargo.toml"]⟩
            else ⟨"b", "1", "B", none, ["r", "b", "Cargo.toml"]⟩,
   fun i => if i = 0 then [((1 : Fin 2), DepKind.Normal)]
            else [((0 : Fin 2), DepKind.Normal)]⟩

/-- A two-node graph for the span index: one node with a source descriptor,
one without (whose manifest parent is used instead). -/
def egSpans : Krates 2 :=
  ⟨fun i => if i = 0 then ⟨"a", "1.0.0", "A", some "registry", ["r", "a", "Cargo.toml"]⟩
            else ⟨"b", "2.0.0", "B", none, ["r", "b", "Cargo.toml"]⟩,
   fun _ => []⟩

/-- A one-node graph whose only crate has neither a source descriptor nor a
manifest path with a parent. -/
def egNoParent : Krates 1 :=
  ⟨fun _ => ⟨"a", "1", "A", none, []⟩, fun _ => []⟩

/-- An example diagnostic used to exercise the pack-stamping behavior. -/
def egDiagnostic : Diagnostic :=
  Diagnostic.new_error "dup" ⟨0, (0, 1), "first"⟩

/-! ### Order lemmas for the modelled string comparison -/

theorem strLtb_nil_right : ∀ l : List Char, strLtb l [] = false := by
  intro l
  cases l <;> rfl

theorem charEq_of_toNat {a b : Char} (h : a.toNat = b.toNat) : a = b :=
  Char.ext (UInt32.toNat.inj h)

theorem strLtb_irrefl : ∀ l : List Char, strLtb l l = false
  | [] => rfl
  | a :: as => by
    simp [strLtb, strLtb_irrefl as]

theorem strLtb_trans : ∀ a b c : List Char,
    strLtb a b = true → strLtb b c = true → strLtb a c = true
  | _, b, [] => by
    intro _ h
    rw [strLtb_nil_right b] at h
    cases h
  | [], _ :: _, _ :: _ => by
    intro _ _
    rfl
  | [], [], _ :: _ => by
    intro h _
    cases h
  | _ :: _, [], _ :: _ => by
    intro h _
    cases h
  | a :: as, b :: bs, c :: cs => by
    intro h₁ h₂
    simp only [strLtb] at h₁ h₂ ⊢
    split_ifs at h₁ h₂ ⊢ <;> try rfl
    all_goals first
      | omega
      | exact h₁
      | exact h₂
      | exact strLtb_trans as bs cs h₁ h₂

theorem strLtb_asymm : ∀ a b : List Char,
    strLtb a b = true → strLtb b a = false
  | a, [] => by
    intro h
    rw [strLtb_nil_right a] at h
    cases h
  | [], _ :: _ => by
    intro _
    rfl
  | a :: as, b :: bs => by
    intro h
    simp only [strLtb] at h ⊢
    split_ifs at h ⊢ <;> try rfl
    all_goals first
      | omega
      | exact h
      | exact strLtb_asymm as bs h

theorem strLtb_antisymm : ∀ a b : List Char,
    strLtb a b = false → strLtb b a = false → a = b
  | [], [] => by
    intro _ _
    rfl
  | [], _ :: _ => by
    intro h _
    cases h
  | _ :: _, [] => by
    intro _ h
    cases h
  | a :: as, b :: bs => by
    intro h₁ h₂
    simp only [strLtb] at h₁ h₂
    split_ifs at h₁ h₂ <;> try omega
    have hc : a = b := charEq_of_toNat (by omega)
    have ht : as = bs := strLtb_antisymm as bs h₁ h₂
    rw [hc, ht]

theorem strLt_irrefl (a : String) : ¬ strLt a a := by
  unfold strLt
  simp [strLtb_irrefl]

theorem strLt_trans {a b c : String} (h₁ : strLt a b) (h₂ : strLt b c) : strLt a c :=
  strLtb_trans a.data b.data c.data h₁ h₂

theorem strLt_asymm {a b : String} (h : strLt a b) : ¬ strLt b a := by
  unfold strLt
  simp [strLtb_asymm a.data b.data h]

theorem str_eq_of_not_lt {a b : String} (h₁ : ¬ strLt a b) (h₂ : ¬ strLt b a) : a = b := by
  have hd : a.data = b.data := by
    apply strLtb_antisymm
    · simpa [strLt] using h₁
    · simpa [strLt] using h₂
  cases a
  cases b
  exact congrArg String.mk hd

/-! ### Order lemmas for crate identities -/

theorem KrateId.ltP_irrefl (a : KrateId) : ¬ KrateId.ltP a a := by
  unfold KrateId.ltP
  intro h
  rcases h with h | ⟨_, h⟩ <;> exact strLt_irrefl _ h

theorem KrateId.ltP_trans {a b c : KrateId}
    (h₁ : KrateId.ltP a b) (h₂ : KrateId.ltP b c) : KrateId.ltP a c := by
  unfold KrateId.ltP at h₁ h₂ ⊢
  rcases h₁ with h₁ | ⟨e₁, v₁⟩ <;> rcases h₂ with h₂ | ⟨e₂, v₂⟩
  · exact Or.inl (strLt_trans h₁ h₂)
  · exact Or.inl (e₂ ▸ h₁)
  · exact Or.inl (e₁ ▸ h₂)
  · exact Or.inr ⟨e₁.trans e₂, strLt_trans v₁ v₂⟩

theorem KrateId.ltP_asymm {a b : KrateId} (h : KrateId.ltP a b) : ¬ KrateId.ltP b a := by
  intro h'
  exact KrateId.ltP_irrefl a (KrateId.ltP_trans h h')

theorem KrateId.eq_of_not_ltP {a b : KrateId}
    (h₁ : ¬ KrateId.ltP a b) (h₂ : ¬ KrateId.ltP b a) : a = b := by
  unfold KrateId.ltP at h₁ h₂
  push_neg at h₁ h₂
  have hn : a.name = b.name := str_eq_of_not_lt h₁.1 h₂.1
  have hv : a.version = b.version := str_eq_of_not_lt (h₁.2 hn) (h₂.2 hn.symm)
  cases a
  cases b
  simp_all

theorem KrateId.leP_total (a b : KrateId) : KrateId.leP a b ∨ KrateId.leP b a := by
  unfold KrateId.leP
  by_cases h₁ : KrateId.ltP a b
  · exact Or.inl (Or.inl h₁)
  · by_cases h₂ : KrateId.ltP b a
    · exact Or.inr (Or.inl h₂)
    · exact Or.inl (Or.inr (KrateId.eq_of_not_ltP h₁ h₂))

theorem KrateId.leP_trans {a b c : KrateId}
    (h₁ : KrateId.leP a b) (h₂ : KrateId.leP b c) : KrateId.leP a c := by
  unfold KrateId.leP at h₁ h₂ ⊢
  rcases h₁ with h₁ | rfl
  · rcases h₂ with h₂ | rfl
    · exact Or.inl (KrateId.ltP_trans h₁ h₂)
    · exact Or.inl h₁
  · exact h₂

theorem KrateId.cmp_eq_iff {a b : KrateId} : KrateId.cmp a b = Ordering.eq ↔ a = b := by
  unfold KrateId.cmp
  constructor
  · intro h
    split_ifs at h with h₁ h₂
    exact KrateId.eq_of_not_ltP h₁ h₂
  · rintro rfl
    simp [KrateId.ltP_irrefl a]

theorem KrateId.cmp_lt_iff {a b : KrateId} : KrateId.cmp a b = Ordering.lt ↔ KrateId.ltP a b := by
  unfold KrateId.cmp
  split_ifs with h₁ h₂ <;> simp_all

theorem KrateId.cmp_gt_iff {a b : KrateId} : KrateId.cmp a b = Ordering.gt ↔ KrateId.ltP b a := by
  unfold KrateId.cmp
  split_ifs with h₁ h₂ <;> simp_all
  exact KrateId.ltP_asymm h₁

/-! ### Claim C1: conflict diagnostic construction -/

/-- Of two conflicting (entry, category) pairs, the one whose span starts
later (the tie going to the second, matching the `else` branch). -/
def laterOf (first second : Skrate × String) : Skrate × String :=
  if first.1.span.1 > second.1.span.1 then first else second

/-- Of two conflicting (entry, category) pairs, the one whose span starts
earlier (the tie going to the first). -/
def earlierOf (first second : Skrate × String) : Skrate × String :=
  if first.1.span.1 > second.1.span.1 then second else first

/-- Claim C1 (amended): for two conflicting entries with distinct span
starts, the diagnostic's primary label is the later-starting entry (its span
start is the greater of the two), the earlier entry becomes the secondary
label, and the message names the later-declared entry's category first —
not, as the claim states, the earlier-declared one's. -/
theorem claim_c1_conflict_diag_layout (cfg_file : Nat) (first second : Skrate × String)
    (h : first.1.span.1 ≠ second.1.span.1) :
    addDiag cfg_file first second =
      ⟨Severity.Error,
       "a license id was specified in both `" ++ (laterOf first second).2 ++ "` and `" ++
         (earlierOf first second).2 ++ "`",
       ⟨cfg_file, (laterOf first second).1.span,
        "marked as `" ++ (laterOf first second).2 ++ "`"⟩,
       [⟨cfg_file, (earlierOf first second).1.span,
         "marked as `" ++ (earlierOf first second).2 ++ "`"⟩]⟩ ∧
    (laterOf first second).1.span.1 = max first.1.span.1 second.1.span.1 := by
  unfold addDiag laterOf earlierOf
  by_cases hgt : first.1.span.1 > second.1.span.1
  · simp only [hgt, if_pos, if_true, gt_iff_lt]
    refine ⟨by simp [Diagnostic.new_error, Diagnostic.with_secondary_labels, hgt], ?_⟩
    omega
  · simp only [hgt, if_false, if_neg, gt_iff_lt]
    refine ⟨by simp [Diagnostic.new_error, Diagnostic.with_secondary_labels, hgt], ?_⟩
    omega

/-- Witness for claim C1's amended theorem at a concrete conflicting pair. -/
theorem claim_c1_conflict_diag_layout_witness :
    ((10 : Nat) ≠ 3) ∧
    (addDiag 7 (⟨⟨"a", "*"⟩, (10, 12)⟩, "deny") (⟨⟨"a", "*"⟩, (3, 5)⟩, "skip") =
      ⟨Severity.Error,
       "a license id was specified in both `" ++
         (laterOf (⟨⟨"a", "*"⟩, (10, 12)⟩, "deny") (⟨⟨"a", "*"⟩, (3, 5)⟩, "skip")).2 ++
         "` and `" ++
         (earlierOf (⟨⟨"a", "*"⟩, (10, 12)⟩, "deny") (⟨⟨"a", "*"⟩, (3, 5)⟩, "skip")).2 ++ "`",
       ⟨7, (laterOf (⟨⟨"a", "*"⟩, (10, 12)⟩, "deny") (⟨⟨"a", "*"⟩, (3, 5)⟩, "skip")).1.span,
        "marked as `" ++
          (laterOf (⟨⟨"a", "*"⟩, (10, 12)⟩, "deny") (⟨⟨"a", "*"⟩, (3, 5)⟩, "skip")).2 ++ "`"⟩,
       [⟨7, (earlierOf (⟨⟨"a", "*"⟩, (10, 12)⟩, "deny") (⟨⟨"a", "*"⟩, (3, 5)⟩, "skip")).1.span,
         "marked as `" ++
           (earlierOf (⟨⟨"a", "*"⟩, (10, 12)⟩, "deny") (⟨⟨"a", "*"⟩, (3, 5)⟩, "skip")).2 ++
           "`"⟩]⟩ ∧
      (laterOf (⟨⟨"a", "*"⟩, (10, 12)⟩, "deny") (⟨⟨"a", "*"⟩, (3, 5)⟩, "skip")).1.span.1 =
        max 10 3) :=
  ⟨by decide,
   claim_c1_conflict_diag_layout 7 (⟨⟨"a", "*"⟩, (10, 12)⟩, "deny")
     (⟨⟨"a", "*"⟩, (3, 5)⟩, "skip") (by decide)⟩

/-- Counterexample to claim C1 as stated: with the allow entry declared at
span start 0 and the deny entry at span start 10, the deny entry is primary
(later, as claimed) but the message names the later-declared `deny` category
first, not the earlier-declared `allow`. -/
theorem claim_c1_counterexample :
    (addDiag 0 (⟨⟨"foo", "*"⟩, (10, 13)⟩, "deny")
        (⟨⟨"foo", "*"⟩, (0, 3)⟩, "allow")).primary.span = (10, 13) ∧
    (addDiag 0 (⟨⟨"foo", "*"⟩, (10, 13)⟩, "deny")
        (⟨⟨"foo", "*"⟩, (0, 3)⟩, "allow")).secondary =
      [⟨0, (0, 3), "marked as `allow`"⟩] ∧
    (addDiag 0 (⟨⟨"foo", "*"⟩, (10, 13)⟩, "deny")
        (⟨⟨"foo", "*"⟩, (0, 3)⟩, "allow")).message =
      "a license id was specified in both `deny` and `allow`" ∧
    (addDiag 0 (⟨⟨"foo", "*"⟩, (10, 13)⟩, "deny")
        (⟨⟨"foo", "*"⟩, (0, 3)⟩, "allow")).message ≠
      "a license id was specified in both `allow` and `deny`" := by
  refine ⟨by decide, by decide, by decide, by decide⟩

/-! ### Claim C8: pack stamping -/

theorem Pack.push_of_kid_none (p : Pack) (hp : p.kid = none) (d : Diag) :
    p.push d = ⟨p.diags ++ [d], none⟩ := by
  unfold Pack.push
  by_cases hd : d.kids.isEmpty <;> simp [hd, hp]

theorem Pack.pushAll_of_kid_none :
    ∀ (ds : List Diag) (p : Pack), p.kid = none → p.pushAll ds = ⟨p.diags ++ ds, none⟩
  | [], p, hp => by
    simp [Pack.pushAll]
    cases p
    simp_all
  | d :: rest, p, hp => by
    have hstep := Pack.push_of_kid_none p hp d
    simp only [Pack.pushAll, List.foldl_cons]
    rw [show p.push d = ⟨p.diags ++ [d], none⟩ from hstep]
    have := Pack.pushAll_of_kid_none rest ⟨p.diags ++ [d], none⟩ rfl
    simp [Pack.pushAll] at this ⊢
    simp [this]

theorem Pack.push_diags (p : Pack) (d : Diag) :
    p.push d = ⟨p.diags ++ [pushedDiag p d], if d.kids.isEmpty then none else p.kid⟩ := by
  unfold Pack.push pushedDiag
  by_cases hk : d.kids.isEmpty <;> cases hpk : p.kid <;> simp [hk, hpk]

theorem Pack.pushAll_shape :
    ∀ (ds : List Diag) (p : Pack),
      ∃ t, (p.pushAll ds).diags = p.diags ++ t ∧ t.length = ds.length
  | [], p => ⟨[], by simp [Pack.pushAll], rfl⟩
  | d :: rest, p => by
    obtain ⟨t, ht, hlen⟩ := Pack.pushAll_shape rest (p.push d)
    refine ⟨pushedDiag p d :: t, ?_, by simp [hlen]⟩
    simp only [Pack.pushAll, List.foldl_cons] at ht ⊢
    rw [ht, Pack.push_diags]
    simp

theorem zip_self_stamp_count (l : List Diag) :
    (l.zip l).countP (fun x => decide (x.1.kids ≠ x.2.kids)) = 0 := by
  induction l with
  | nil => rfl
  | cons d rest ih =>
    rw [List.zip_cons_cons, List.countP_cons, ih]
    simp

theorem stampCount_nil (p : Pack) : stampCount p [] = 0 := by
  simp [stampCount, Pack.pushAll]

theorem stampCount_of_kid_none (p : Pack) (hp : p.kid = none) (ds : List Diag) :
    stampCount p ds = 0 := by
  unfold stampCount
  rw [Pack.pushAll_of_kid_none ds p hp]
  simp only [List.drop_left]
  exact zip_self_stamp_count ds

theorem stampCount_cons (p : Pack) (d : Diag) (rest : List Diag) :
    stampCount p (d :: rest) =
      (if (pushedDiag p d).kids = d.kids then 0 else 1) + stampCount (p.push d) rest := by
  unfold stampCount
  simp only [Pack.pushAll, List.foldl_cons]
  obtain ⟨t, ht, hlen⟩ := Pack.pushAll_shape rest (p.push d)
  simp only [Pack.pushAll] at ht
  rw [ht]
  conv_lhs => rw [Pack.push_diags]
  rw [show ((⟨p.diags ++ [pushedDiag p d],
        if d.kids.isEmpty then none else p.kid⟩ : Pack).diags ++ t) =
      p.diags ++ (pushedDiag p d :: t) by simp]
  rw [List.drop_left]
  rw [Pack.push_diags]
  rw [show ((⟨p.diags ++ [pushedDiag p d],
        if d.kids.isEmpty then none else p.kid⟩ : Pack).diags) =
      p.diags ++ [pushedDiag p d] by simp]
  rw [List.drop_left]
  rw [List.zip_cons_cons, List.countP_cons]
  by_cases he : (pushedDiag p d).kids = d.kids <;> simp [he] <;> omega

theorem stampCount_le_one : ∀ (ds : List Diag) (p : Pack), stampCount p ds ≤ 1
  | [], p => by
    simp [stampCount_nil]
  | d :: rest, p => by
    rw [stampCount_cons]
    by_cases hs : d.kids.isEmpty = true ∧ p.kid.isSome = true
    · obtain ⟨hk, hks⟩ := hs
      have h0 : stampCount (p.push d) rest = 0 := by
        apply stampCount_of_kid_none
        rw [Pack.push_diags]
        simp [hk]
      rw [h0]
      split <;> omega
    · have hpd : pushedDiag p d = d := by
        unfold pushedDiag
        by_cases hk : d.kids.isEmpty
        · cases hpk : p.kid
          · simp [hk, hpk]
          · exact absurd ⟨hk, by simp [hpk]⟩ hs
        · simp [hk]
      rw [hpd]
      simpa using stampCount_le_one rest (p.push d)

/-- Claim C8: a push stamps the pack's default crate id exactly when the
diagnostic arrives with no crates and the pack still holds a default (which
is then cleared); in every other case the diagnostic and the pack default
are stored unchanged; and across any sequence of pushes at most one stored
diagnostic differs from what was pushed. -/
theorem claim_c8_pack_stamping (p : Pack) (d : Diag) (k : Kid) (ds : List Diag) :
    (d.kids = [] → p.kid = some k → p.push d = ⟨p.diags ++ [⟨d.diag, [k]⟩], none⟩) ∧
    (d.kids ≠ [] ∨ p.kid = none → p.push d = ⟨p.diags ++ [d], p.kid⟩) ∧
    stampCount p ds ≤ 1 := by
  refine ⟨?_, ?_, stampCount_le_one ds p⟩
  · intro hd hpk
    unfold Pack.push
    simp [hd, hpk]
  · intro hcase
    rcases hcase with hd | hpk
    · unfold Pack.push
      simp [List.isEmpty_iff, hd]
    · rw [Pack.push_of_kid_none p hpk d, hpk]

/-- Witness for claim C8 at a concrete pack with a default crate id. -/
theorem claim_c8_pack_stamping_witness :
    (Pack.with_kid "K").push (Diag.new egDiagnostic) =
      ⟨[⟨egDiagnostic, ["K"]⟩], none⟩ ∧
    stampCount (Pack.with_kid "K") [Diag.new egDiagnostic, Diag.new egDiagnostic] ≤ 1 :=
  ⟨(claim_c8_pack_stamping (Pack.with_kid "K") (Diag.new egDiagnostic) "K" []).1 rfl rfl,
   (claim_c8_pack_stamping (Pack.with_kid "K") (Diag.new egDiagnostic) "K"
      [Diag.new egDiagnostic, Diag.new egDiagnostic]).2.2⟩

/-! ### Claims C6 and C10: the span index -/

theorem spans_fold_inv :
    ∀ (ks : List Krate) (sps₀ : List Span) (sl₀ : String) (sps : List Span) (sl : String),
      List.foldlM spanStep (sps₀, sl₀) ks = some (sps, sl) →
      sps.length = sps₀.length + ks.length ∧
      sps.take sps₀.length = sps₀ ∧
      (∃ t : String, sl = sl₀ ++ t) ∧
      ∀ j, j < ks.length →
        ∃ line, synthLine (ks.getD j dfltKrate) = some line ∧
          sliceSpan sl (sps.getD (sps₀.length + j) (0, 0)) = line.data
  | [], sps₀, sl₀, sps, sl => by
    intro h
    simp only [List.foldlM_nil, Option.pure_def, Option.some.injEq, Prod.mk.injEq] at h
    obtain ⟨rfl, rfl⟩ := h
    refine ⟨by simp, by simp, ⟨"", by simp⟩, ?_⟩
    intro j hj
    cases hj
  | k :: rest, sps₀, sl₀, sps, sl => by
    intro h
    simp only [List.foldlM_cons] at h
    cases hline : synthLine k with
    | none =>
      rw [spanStep, hline] at h
      cases h
    | some line =>
      rw [spanStep, hline] at h
      simp only [Option.bind_eq_bind, Option.some_bind] at h
      obtain ⟨hlen, htake, ⟨t, ht⟩, hmem⟩ := spans_fold_inv rest _ _ sps sl h
      have hlen₀ : (sps₀ ++ [((sl₀.length, (sl₀ ++ line ++ "\n").length - 1) : Span)]).length
          = sps₀.length + 1 := by simp
      rw [hlen₀] at hlen htake hmem
      refine ⟨by simp [hlen]; omega, ?_, ?_, ?_⟩
      · have : sps.take sps₀.length = (sps.take (sps₀.length + 1)).take sps₀.length := by
          rw [List.take_take]
          congr 1
          omega
        rw [this, htake]
        rw [show sps₀.length = (sps₀.length) from rfl]
        have := List.take_left sps₀ [((sl₀.length, (sl₀ ++ line ++ "\n").length - 1) : Span)]
        exact this
      · refine ⟨line ++ "\n" ++ t, ?_⟩
        rw [ht]
        simp [String.append_assoc]
      · intro j hj
        cases j with
        | zero =>
          refine ⟨line, by simpa using hline, ?_⟩
          have hcong := congrArg (fun l => l.getD sps₀.length ((0, 0) : Span)) htake
          simp only at hcong
          have hlhs : (sps.take (sps₀.length + 1)).getD sps₀.length ((0, 0) : Span) =
              sps.getD sps₀.length ((0, 0) : Span) := by
            have h1 : sps₀.length < (sps.take (sps₀.length + 1)).length := by
              rw [htake]
              simp
            rw [List.getD_eq_getElem _ _ h1,
              List.getD_eq_getElem _ _ (by omega : sps₀.length < sps.length)]
            simp [List.getElem_take]
          have hrhs : (sps₀ ++ [((sl₀.length, (sl₀ ++ line ++ "\n").length - 1) : Span)]).getD
              sps₀.length ((0, 0) : Span) =
              ((sl₀.length, (sl₀ ++ line ++ "\n").length - 1) : Span) := by
            rw [List.getD_eq_getElem _ _ (by simp)]
            simp
          have hsp : sps.getD (sps₀.length + 0) (0, 0) =
              ((sl₀.length, (sl₀ ++ line ++ "\n").length - 1) : Span) := by
            rw [Nat.add_zero]
            exact hlhs.symm.trans (hcong.trans hrhs)
          rw [hsp]
          unfold sliceSpan
          have hnl : ("\n" : String).length = 1 := rfl
          have hend : (sl₀ ++ line ++ "\n").length - 1 - sl₀.length = line.length := by
            simp [String.length_append, hnl]
          simp only [hend]
          rw [ht]
          have hdata : (sl₀ ++ line ++ "\n" ++ t).data =
              sl₀.data ++ (line.data ++ ("\n" ++ t).data) := by
            simp [String.data_append]
          rw [hdata]
          rw [show (sl₀.length : Nat) = sl₀.data.length from rfl]
          rw [List.drop_left]
          rw [show (line.length : Nat) = line.data.length from rfl]
          exact List.take_left line.data ("\n" ++ t).data
        | succ j' =>
          have hj' : j' < rest.length := by
            simp only [List.length_cons] at hj
            omega
          have := hmem j' hj' 
          rw [show sps₀.length + 1 + j' = sps₀.length + (j' + 1) by omega] at this
          simpa using this

/-- Claim C6: when the span index is built, it has exactly one span per
graph node, and slicing the synthesized text with node `i`'s span yields
exactly that node's lockfile line (name, version, source or manifest parent)
without the terminating newline. -/
theorem claim_c6_span_round_trip {n : Nat} (g : Krates n) (ks : KrateSpans) (sl : String)
    (h : KrateSpans.new g = some (ks, sl)) :
    ks.spans.length = n ∧
    ∀ i : Fin n, ∃ line, synthLine (g.krate i) = some line ∧
      sliceSpan sl (ks.spans.getD i.1 (0, 0)) = line.data := by
  unfold KrateSpans.new at h
  rw [Option.map_eq_some'] at h
  obtain ⟨r, hr, hrk⟩ := h
  injection hrk with h1 h2
  subst h2
  obtain ⟨hlen, -, -, hmem⟩ := spans_fold_inv ((List.finRange n).map g.krate) [] "" r.1 r.2
    (by rw [hr])
  have hsp : ks.spans = r.1 := by
    rw [← h1]
  constructor
  · rw [hsp]
    simpa using hlen
  · intro i
    have hi : i.1 < ((List.finRange n).map g.krate).length := by simpa using i.2
    obtain ⟨line, hline, hslice⟩ := hmem i.1 hi
    refine ⟨line, ?_, ?_⟩
    · rw [List.getD_eq_getElem _ dfltKrate hi] at hline
      simpa using hline
    · rw [hsp]
      simpa using hslice

/-- Witness for claim C6 at a concrete two-node graph (one node with a
source descriptor, one whose manifest parent is used). -/
theorem claim_c6_span_round_trip_witness :
    KrateSpans.new egSpans =
      some (⟨[(0, 16), (17, 28)]⟩, "a 1.0.0 registry\nb 2.0.0 r/b\n") ∧
    ((⟨[(0, 16), (17, 28)]⟩ : KrateSpans).spans.length = 2 ∧
      ∀ i : Fin 2, ∃ line, synthLine (egSpans.krate i) = some line ∧
        sliceSpan "a 1.0.0 registry\nb 2.0.0 r/b\n"
          ((⟨[(0, 16), (17, 28)]⟩ : KrateSpans).spans.getD i.1 (0, 0)) = line.data) :=
  ⟨by decide,
   claim_c6_span_round_trip egSpans ⟨[(0, 16), (17, 28)]⟩
     "a 1.0.0 registry\nb 2.0.0 r/b\n" (by decide)⟩

theorem spans_fold_isSome :
    ∀ (ks : List Krate) (acc : List Span × String),
      (List.foldlM spanStep acc ks).isSome = true ↔ ∀ k ∈ ks, (synthLine k).isSome = true
  | [], acc => by
    simp [List.foldlM_nil]
  | k :: rest, acc => by
    simp only [List.foldlM_cons]
    cases hline : synthLine k with
    | none =>
      rw [spanStep, hline]
      simp [hline]
    | some line =>
      rw [spanStep, hline]
      simp only [Option.bind_eq_bind, Option.some_bind]
      rw [spans_fold_isSome rest _]
      constructor
      · intro hall k' hk'
        rcases List.mem_cons.mp hk' with rfl | hk'
        · simp [hline]
        · exact hall k' hk'
      · intro hall k' hk'
        exact hall k' (List.mem_cons_of_mem _ hk')

/-- Claim C10 (amended): span-index construction succeeds exactly when every
node has a synthesizable line, i.e. a source descriptor or a manifest path
with a parent directory; a node with neither makes the construction abort
(the `unwrap` panic), an abort that is propagated and never swallowed.  The
claim's stronger statement — that every node always produces a line — fails
on such a node. -/
theorem claim_c10_spans_success_iff {n : Nat} (g : Krates n) :
    (KrateSpans.new g).isSome = true ↔
      ∀ i : Fin n, (g.krate i).source.isSome = true ∨
        (pathParent (g.krate i).manifest_path).isSome = true := by
  unfold KrateSpans.new
  have hmap : ∀ (o : Option (List Span × String)),
      (Option.map (fun r => ((⟨r.1⟩ : KrateSpans), r.2)) o).isSome = o.isSome := by
    intro o
    cases o <;> rfl
  rw [hmap, spans_fold_isSome]
  constructor
  · intro hall i
    have := hall (g.krate i) (List.mem_map_of_mem g.krate (List.mem_finRange i))
    unfold synthLine at this
    cases hs : (g.krate i).source with
    | some src => simp [hs]
    | none =>
      rw [hs] at this
      cases hp : pathParent (g.krate i).manifest_path with
      | some p => simp [hp]
      | none =>
        rw [hp] at this
        simp at this
  · intro hall k hk
    obtain ⟨i, -, rfl⟩ := List.mem_map.mp hk
    unfold synthLine
    rcases hall i with hs | hp
    · obtain ⟨src, hsrc⟩ := Option.isSome_iff_exists.mp hs
      simp [hsrc]
    · obtain ⟨p, hpar⟩ := Option.isSome_iff_exists.mp hp
      cases hsrc : (i : Fin n) |> g.krate |>.source <;> simp [hsrc, hpar]

/-- Counterexample to claim C10 as stated: a graph whose single node has no
source descriptor and an empty manifest path makes `KrateSpans::new` abort
instead of producing a line for the node. -/
theorem claim_c10_counterexample :
    KrateSpans.new egNoParent = none ∧
    (egNoParent.krate 0).source = none ∧
    (egNoParent.krate 0).manifest_path = [] := by
  refine ⟨by decide, by decide, by decide⟩

/-! ### Claims C5 and C7: sortedness and no data loss on success -/

theorem validate_ok_inversion (cfg : Config) (cfg_file : Nat) (vc : ValidConfig)
    (h : cfg.validate cfg_file = Except.ok vc) :
    vc = ⟨cfg_file, cfg.multiple_versions, cfg.highlight,
      List.insertionSort skrateLEP (cfg.deny.map fromSpanned),
      List.insertionSort skrateLEP (cfg.allow.map fromSpanned),
      List.insertionSort skrateLEP (cfg.skip.map fromSpanned),
      cfg.skip_tree⟩ := by
  unfold Config.validate at h
  dsimp only at h
  split at h
  · injection h with h'
    exact h'.symm
  · cases h

/-- Claim C5: for every raw config on which `validate` succeeds, each of the
three sequences `denied`, `allowed`, `skipped` of the returned `ValidConfig`
is sorted non-decreasing under the crate-identity order (name first, then
version constraint). -/
theorem claim_c5_sortedness (cfg : Config) (cfg_file : Nat) (vc : ValidConfig)
    (h : cfg.validate cfg_file = Except.ok vc) :
    vc.denied.Sorted skrateLEP ∧ vc.allowed.Sorted skrateLEP ∧
      vc.skipped.Sorted skrateLEP := by
  haveI : IsTotal Skrate skrateLEP := ⟨fun a b => KrateId.leP_total a.value b.value⟩
  haveI : IsTrans Skrate skrateLEP := ⟨fun _ _ _ h₁ h₂ => KrateId.leP_trans h₁ h₂⟩
  rw [validate_ok_inversion cfg cfg_file vc h]
  exact ⟨List.sorted_insertionSort skrateLEP _, List.sorted_insertionSort skrateLEP _,
    List.sorted_insertionSort skrateLEP _⟩

/-- Witness for claim C5 at a concrete conflict-free config with unsorted
deny entries. -/
theorem claim_c5_sortedness_witness :
    Config.validate cfgOk 0 = Except.ok
      ⟨0, LintLevel.Deny, GraphHighlight.SimplestPath,
       [⟨⟨"a", "*"⟩, (2, 3)⟩, ⟨⟨"b", "*"⟩, (0, 1)⟩], [⟨⟨"c", "*"⟩, (4, 5)⟩], [], []⟩ ∧
    ((⟨0, LintLevel.Deny, GraphHighlight.SimplestPath,
       [⟨⟨"a", "*"⟩, (2, 3)⟩, ⟨⟨"b", "*"⟩, (0, 1)⟩], [⟨⟨"c", "*"⟩, (4, 5)⟩], [],
       []⟩ : ValidConfig).denied.Sorted skrateLEP ∧
     (⟨0, LintLevel.Deny, GraphHighlight.SimplestPath,
       [⟨⟨"a", "*"⟩, (2, 3)⟩, ⟨⟨"b", "*"⟩, (0, 1)⟩], [⟨⟨"c", "*"⟩, (4, 5)⟩], [],
       []⟩ : ValidConfig).allowed.Sorted skrateLEP ∧
     (⟨0, LintLevel.Deny, GraphHighlight.SimplestPath,
       [⟨⟨"a", "*"⟩, (2, 3)⟩, ⟨⟨"b", "*"⟩, (0, 1)⟩], [⟨⟨"c", "*"⟩, (4, 5)⟩], [],
       []⟩ : ValidConfig).skipped.Sorted skrateLEP) :=
  ⟨by decide,
   claim_c5_sortedness cfgOk 0
     ⟨0, LintLevel.Deny, GraphHighlight.SimplestPath,
      [⟨⟨"a", "*"⟩, (2, 3)⟩, ⟨⟨"b", "*"⟩, (0, 1)⟩], [⟨⟨"c", "*"⟩, (4, 5)⟩], [], []⟩
     (by decide)⟩

/-- Claim C7: on success, the three returned sequences are, per category,
permutations of the raw policy lists' crate identities — sorting reorders
but never adds, drops or alters an entry, and no entry changes category. -/
theorem claim_c7_no_data_loss (cfg : Config) (cfg_file : Nat) (vc : ValidConfig)
    (h : cfg.validate cfg_file = Except.ok vc) :
    (vc.denied.map Spanned.value).Perm (cfg.deny.map idOf) ∧
    (vc.allowed.map Spanned.value).Perm (cfg.allow.map idOf) ∧
    (vc.skipped.map Spanned.value).Perm (cfg.skip.map idOf) := by
  rw [validate_ok_inversion cfg cfg_file vc h]
  refine ⟨?_, ?_, ?_⟩ <;>
  · refine List.Perm.trans (List.Perm.map Spanned.value (List.perm_insertionSort skrateLEP _)) ?_
    rw [List.map_map]
    rfl

/-- Witness for claim C7 at the same concrete conflict-free config. -/
theorem claim_c7_no_data_loss_witness :
    Config.validate cfgOk 0 = Except.ok
      ⟨0, LintLevel.Deny, GraphHighlight.SimplestPath,
       [⟨⟨"a", "*"⟩, (2, 3)⟩, ⟨⟨"b", "*"⟩, (0, 1)⟩], [⟨⟨"c", "*"⟩, (4, 5)⟩], [], []⟩ ∧
    (((⟨0, LintLevel.Deny, GraphHighlight.SimplestPath,
        [⟨⟨"a", "*"⟩, (2, 3)⟩, ⟨⟨"b", "*"⟩, (0, 1)⟩], [⟨⟨"c", "*"⟩, (4, 5)⟩], [],
        []⟩ : ValidConfig).denied.map Spanned.value).Perm (cfgOk.deny.map idOf) ∧
     ((⟨0, LintLevel.Deny, GraphHighlight.SimplestPath,
        [⟨⟨"a", "*"⟩, (2, 3)⟩, ⟨⟨"b", "*"⟩, (0, 1)⟩], [⟨⟨"c", "*"⟩, (4, 5)⟩], [],
        []⟩ : ValidConfig).allowed.map Spanned.value).Perm (cfgOk.allow.map idOf) ∧
     ((⟨0, LintLevel.Deny, GraphHighlight.SimplestPath,
        [⟨⟨"a", "*"⟩, (2, 3)⟩, ⟨⟨"b", "*"⟩, (0, 1)⟩], [⟨⟨"c", "*"⟩, (4, 5)⟩], [],
        []⟩ : ValidConfig).skipped.map Spanned.value).Perm (cfgOk.skip.map idOf)) :=
  ⟨by decide,
   claim_c7_no_data_loss cfgOk 0
     ⟨0, LintLevel.Deny, GraphHighlight.SimplestPath,
      [⟨⟨"a", "*"⟩, (2, 3)⟩, ⟨⟨"b", "*"⟩, (0, 1)⟩], [⟨⟨"c", "*"⟩, (4, 5)⟩], [], []⟩
     (by decide)⟩

/-! ### Claim C2: binary-search correctness and conflict counting -/

theorem KrateId.leP_iff_not_ltP {a b : KrateId} : KrateId.leP a b ↔ ¬ KrateId.ltP b a := by
  constructor
  · rintro (h | rfl)
    · exact KrateId.ltP_asymm h
    · exact KrateId.ltP_irrefl a
  · intro h
    by_cases h' : KrateId.ltP a b
    · exact Or.inl h'
    · exact Or.inr (KrateId.eq_of_not_ltP h' h)

theorem KrateId.leP_ltP_trans {a b c : KrateId}
    (h₁ : KrateId.leP a b) (h₂ : KrateId.ltP b c) : KrateId.ltP a c := by
  rcases h₁ with h₁ | rfl
  · exact KrateId.ltP_trans h₁ h₂
  · exact h₂

theorem KrateId.ltP_leP_trans {a b c : KrateId}
    (h₁ : KrateId.ltP a b) (h₂ : KrateId.leP b c) : KrateId.ltP a c := by
  rcases h₂ with h₂ | rfl
  · exact KrateId.ltP_trans h₁ h₂
  · exact h₁

theorem Skrate.cmp_eq_iff_value {a b : Skrate} :
    Skrate.cmp a b = Ordering.eq ↔ a.value = b.value :=
  KrateId.cmp_eq_iff

theorem Skrate.cmp_lt_iff_value {a b : Skrate} :
    Skrate.cmp a b = Ordering.lt ↔ KrateId.ltP a.value b.value :=
  KrateId.cmp_lt_iff

theorem Skrate.cmp_gt_iff_value {a b : Skrate} :
    Skrate.cmp a b = Ordering.gt ↔ KrateId.ltP b.value a.value :=
  KrateId.cmp_gt_iff

theorem bsGo_some_spec (l : List Skrate) (key : Skrate) :
    ∀ (fuel left right i : Nat), bsGo l key fuel left right = some i →
      Skrate.cmp (l.getD i dfltSkrate) key = Ordering.eq ∧ left ≤ i ∧ i < right
  | 0, _, _, _ => by
    intro h
    cases h
  | fuel + 1, left, right, i => by
    intro h
    unfold bsGo at h
    split at h
    · rename_i hlr
      dsimp only at h
      rcases hcmp : Skrate.cmp (l.getD ((left + right) / 2) dfltSkrate) key with _ | _ | _ <;>
          rw [hcmp] at h
      · obtain ⟨h₁, h₂, h₃⟩ := bsGo_some_spec l key fuel ((left + right) / 2 + 1) right i h
        exact ⟨h₁, by omega, h₃⟩
      · injection h with h'
        subst h'
        exact ⟨hcmp, by omega, by omega⟩
      · obtain ⟨h₁, h₂, h₃⟩ := bsGo_some_spec l key fuel left ((left + right) / 2) i h
        exact ⟨h₁, h₂, by omega⟩
    · cases h

theorem bsGo_none_complete (l : List Skrate) (key : Skrate) (hs : l.Sorted skrateLEP) :
    ∀ (fuel left right : Nat), right ≤ l.length → right - left < fuel →
      (∀ j, j < left → j < l.length → KrateId.ltP (l.getD j dfltSkrate).value key.value) →
      (∀ j, right ≤ j → j < l.length → KrateId.ltP key.value (l.getD j dfltSkrate).value) →
      bsGo l key fuel left right = none →
      ∀ x ∈ l, x.value ≠ key.value
  | 0, left, right => by
    intro _ hfuel _ _ _
    omega
  | fuel + 1, left, right => by
    intro hlen hfuel hleft hright hnone
    unfold bsGo at hnone
    split at hnone
    · rename_i hlr
      dsimp only at hnone
      have hmidlt : (left + right) / 2 < l.length := by omega
      rcases hcmp : Skrate.cmp (l.getD ((left + right) / 2) dfltSkrate) key with _ | _ | _ <;>
          rw [hcmp] at hnone
      · have hmid := Skrate.cmp_lt_iff_value.mp hcmp
        refine bsGo_none_complete l key hs fuel ((left + right) / 2 + 1) right hlen
          (by omega) ?_ hright hnone
        intro j hj hjl
        rcases Nat.lt_or_ge j ((left + right) / 2) with hj' | hj'
        · have hpair := (List.pairwise_iff_getElem.mp hs) j ((left + right) / 2) hjl hmidlt hj'
          have hle : KrateId.leP (l.getD j dfltSkrate).value
              (l.getD ((left + right) / 2) dfltSkrate).value := by
            rw [List.getD_eq_getElem _ _ hjl, List.getD_eq_getElem _ _ hmidlt]
            exact hpair
          exact KrateId.leP_ltP_trans hle hmid
        · have : j = (left + right) / 2 := by omega
          rw [this]
          exact hmid
      · cases hnone
      · have hmid := Skrate.cmp_gt_iff_value.mp hcmp
        refine bsGo_none_complete l key hs fuel left ((left + right) / 2)
          (by omega) (by omega) hleft ?_ hnone
        intro j hj hjl
        rcases Nat.lt_or_ge ((left + right) / 2) j with hj' | hj'
        · have hpair := (List.pairwise_iff_getElem.mp hs) ((left + right) / 2) j hmidlt hjl hj'
          have hle : KrateId.leP (l.getD ((left + right) / 2) dfltSkrate).value
              (l.getD j dfltSkrate).value := by
            rw [List.getD_eq_getElem _ _ hjl, List.getD_eq_getElem _ _ hmidlt]
            exact hpair
          exact KrateId.ltP_leP_trans hmid hle
        · have : j = (left + right) / 2 := by omega
          rw [this]
          exact hmid
    · rename_i hlr
      intro x hx
      obtain ⟨i, hi, rfl⟩ := List.mem_iff_getElem.mp hx
      rcases Nat.lt_or_ge i left with hil | hil
      · have := hleft i hil hi
        rw [List.getD_eq_getElem _ _ hi] at this
        intro heq
        rw [heq] at this
        exact KrateId.ltP_irrefl _ this
      · have := hright i (by omega) hi
        rw [List.getD_eq_getElem _ _ hi] at this
        intro heq
        rw [heq] at this
        exact KrateId.ltP_irrefl _ this

theorem binary_search_isSome_iff (l : List Skrate) (key : Skrate) (hs : l.Sorted skrateLEP) :
    (binary_search l key).isSome = true ↔ ∃ x ∈ l, x.value = key.value := by
  constructor
  · intro h
    obtain ⟨i, hi⟩ := Option.isSome_iff_exists.mp h
    obtain ⟨hcmp, -, hir⟩ := bsGo_some_spec l key (l.length + 1) 0 l.length i hi
    have hil : i < l.length := hir
    refine ⟨l.getD i dfltSkrate, ?_, Skrate.cmp_eq_iff_value.mp hcmp⟩
    rw [List.getD_eq_getElem _ _ hil]
    exact List.getElem_mem hil
  · intro hex
    by_contra hnone
    rw [Option.not_isSome_iff_eq_none] at hnone
    obtain ⟨x, hx, hxv⟩ := hex
    exact bsGo_none_complete l key hs (l.length + 1) 0 l.length le_rfl (by omega)
      (by omega) (by omega) hnone x hx hxv

theorem validate_eq (cfg : Config) (cfg_file : Nat) :
    cfg.validate cfg_file =
      if (validateDiags cfg cfg_file).isEmpty then
        Except.ok ⟨cfg_file, cfg.multiple_versions, cfg.highlight,
          List.insertionSort skrateLEP (cfg.deny.map fromSpanned),
          List.insertionSort skrateLEP (cfg.allow.map fromSpanned),
          List.insertionSort skrateLEP (cfg.skip.map fromSpanned), cfg.skip_tree⟩
      else Except.error (validateDiags cfg cfg_file) := rfl

theorem foldl_append_emit {α β : Type} (h : α → List β) :
    ∀ (l : List α) (acc : List β),
      l.foldl (fun a x => a ++ h x) acc = acc ++ l.flatMap h
  | [], acc => by simp
  | x :: rest, acc => by
    rw [List.foldl_cons, foldl_append_emit h rest (acc ++ h x)]
    simp

theorem validateDiags_eq_flatMap (cfg : Config) (cfg_file : Nat) :
    validateDiags cfg cfg_file =
      (List.insertionSort skrateLEP (cfg.deny.map fromSpanned)).flatMap
        (denyEmit cfg_file (List.insertionSort skrateLEP (cfg.allow.map fromSpanned))
          (List.insertionSort skrateLEP (cfg.skip.map fromSpanned))) ++
      (List.insertionSort skrateLEP (cfg.allow.map fromSpanned)).flatMap
        (allowEmit cfg_file (List.insertionSort skrateLEP (cfg.skip.map fromSpanned))) := by
  unfold validateDiags
  rw [foldl_append_emit, foldl_append_emit]
  simp

theorem natSum_eq_zero_iff : ∀ l : List Nat, l.sum = 0 ↔ ∀ x ∈ l, x = 0
  | [] => by simp
  | x :: rest => by
    rw [List.sum_cons]
    constructor
    · intro h y hy
      rcases List.mem_cons.mp hy with rfl | hy
      · omega
      · exact (natSum_eq_zero_iff rest).mp (by omega) y hy
    · intro h
      rw [(natSum_eq_zero_iff rest).mpr (fun y hy => h y (List.mem_cons_of_mem x hy)),
        h x (List.mem_cons_self x rest)]

theorem natSum_map_add {α : Type} (f g : α → Nat) :
    ∀ l : List α, (l.map (fun x => f x + g x)).sum = (l.map f).sum + (l.map g).sum
  | [] => rfl
  | x :: rest => by
    simp only [List.map_cons, List.sum_cons, natSum_map_add f g rest]
    omega

theorem denyEmit_length (cfg_file : Nat) (allowed skipped : List Skrate) (d : Skrate) :
    (denyEmit cfg_file allowed skipped d).length =
      (if (binary_search allowed d).isSome then 1 else 0) +
        (if (binary_search skipped d).isSome then 1 else 0) := by
  unfold denyEmit
  cases binary_search allowed d <;> cases binary_search skipped d <;> simp

theorem allowEmit_length (cfg_file : Nat) (skipped : List Skrate) (a : Skrate) :
    (allowEmit cfg_file skipped a).length =
      if (binary_search skipped a).isSome then 1 else 0 := by
  unfold allowEmit
  cases binary_search skipped a <;> simp

theorem countP_idOf_nodup (raw : List (Spanned CrateId)) (hnd : (raw.map idOf).Nodup)
    (k : KrateId) :
    raw.countP (fun y => decide (idOf y = k)) = if ∃ y ∈ raw, idOf y = k then 1 else 0 := by
  induction raw with
  | nil => simp
  | cons y rest ih =>
    simp only [List.map_cons, List.nodup_cons] at hnd
    obtain ⟨hy, hrest⟩ := hnd
    rw [List.countP_cons]
    by_cases hyk : idOf y = k
    · have hrest0 : rest.countP (fun z => decide (idOf z = k)) = 0 := by
        rw [List.countP_eq_zero]
        intro a ha
        simp only [decide_eq_true_eq]
        intro hak
        apply hy
        rw [hyk, ← hak]
        exact List.mem_map_of_mem idOf ha
      have hex : ∃ z ∈ y :: rest, idOf z = k := ⟨y, List.mem_cons_self y rest, hyk⟩
      rw [hrest0, if_pos hex]
      simp [hyk]
    · rw [ih hrest]
      have hiff : (∃ z ∈ y :: rest, idOf z = k) ↔ ∃ z ∈ rest, idOf z = k := by
        constructor
        · rintro ⟨z, hz, hzk⟩
          rcases List.mem_cons.mp hz with rfl | hz
          · exact absurd hzk hyk
          · exact ⟨z, hz, hzk⟩
        · rintro ⟨z, hz, hzk⟩
          exact ⟨z, List.mem_cons_of_mem y hz, hzk⟩
      rw [if_congr hiff rfl rfl]
      simp [hyk]

theorem sorted_sortedOf (raw : List (Spanned CrateId)) :
    (List.insertionSort skrateLEP (raw.map fromSpanned)).Sorted skrateLEP := by
  haveI : IsTotal Skrate skrateLEP := ⟨fun a b => KrateId.leP_total a.value b.value⟩
  haveI : IsTrans Skrate skrateLEP := ⟨fun _ _ _ h₁ h₂ => KrateId.leP_trans h₁ h₂⟩
  exact List.sorted_insertionSort skrateLEP _

theorem bs_hit_iff_raw (raw₂ : List (Spanned CrateId)) (d : Skrate) :
    (binary_search (List.insertionSort skrateLEP (raw₂.map fromSpanned)) d).isSome = true ↔
      ∃ y ∈ raw₂, idOf y = d.value := by
  rw [binary_search_isSome_iff _ _ (sorted_sortedOf raw₂)]
  constructor
  · rintro ⟨x, hx, hxv⟩
    have hx' : x ∈ raw₂.map fromSpanned :=
      (List.perm_insertionSort skrateLEP (raw₂.map fromSpanned)).mem_iff.mp hx
    obtain ⟨y, hy, rfl⟩ := List.mem_map.mp hx'
    exact ⟨y, hy, hxv⟩
  · rintro ⟨y, hy, hyv⟩
    refine ⟨fromSpanned y, ?_, hyv⟩
    exact (List.perm_insertionSort skrateLEP (raw₂.map fromSpanned)).mem_iff.mpr
      (List.mem_map_of_mem fromSpanned hy)

theorem sum_hit_indicator (raw₁ raw₂ : List (Spanned CrateId))
    (hnd₂ : (raw₂.map idOf).Nodup) :
    ((List.insertionSort skrateLEP (raw₁.map fromSpanned)).map
      (fun d =>
        if (binary_search (List.insertionSort skrateLEP (raw₂.map fromSpanned)) d).isSome
        then 1 else 0)).sum = conflictPairs raw₁ raw₂ := by
  rw [List.Perm.sum_eq (List.Perm.map _ (List.perm_insertionSort skrateLEP _))]
  rw [List.map_map]
  unfold conflictPairs
  congr 1
  apply List.map_congr_left
  intro x hx
  simp only [Function.comp_apply]
  rw [countP_idOf_nodup raw₂ hnd₂ (idOf x)]
  by_cases hex : ∃ y ∈ raw₂, idOf y = idOf x
  · rw [if_pos hex, if_pos]
    exact (bs_hit_iff_raw raw₂ (fromSpanned x)).mpr hex
  · rw [if_neg hex, if_neg]
    intro hhit
    exact hex ((bs_hit_iff_raw raw₂ (fromSpanned x)).mp (by simpa using hhit))

theorem validateDiags_length (cfg : Config) (cfg_file : Nat)
    (h₂ : (cfg.allow.map idOf).Nodup) (h₃ : (cfg.skip.map idOf).Nodup) :
    (validateDiags cfg cfg_file).length =
      conflictPairs cfg.deny cfg.allow + conflictPairs cfg.deny cfg.skip +
        conflictPairs cfg.allow cfg.skip := by
  rw [validateDiags_eq_flatMap]
  rw [List.length_append, List.length_flatMap, List.length_flatMap]
  have hdeny :
      (List.map (List.length ∘
          denyEmit cfg_file (List.insertionSort skrateLEP (cfg.allow.map fromSpanned))
            (List.insertionSort skrateLEP (cfg.skip.map fromSpanned)))
        (List.insertionSort skrateLEP (cfg.deny.map fromSpanned))).sum =
      conflictPairs cfg.deny cfg.allow + conflictPairs cfg.deny cfg.skip := by
    have hpt : (List.map (List.length ∘
          denyEmit cfg_file (List.insertionSort skrateLEP (cfg.allow.map fromSpanned))
            (List.insertionSort skrateLEP (cfg.skip.map fromSpanned)))
        (List.insertionSort skrateLEP (cfg.deny.map fromSpanned))) =
        (List.map (fun d =>
          (if (binary_search (List.insertionSort skrateLEP (cfg.allow.map fromSpanned))
              d).isSome then 1 else 0) +
          (if (binary_search (List.insertionSort skrateLEP (cfg.skip.map fromSpanned))
              d).isSome then 1 else 0))
        (List.insertionSort skrateLEP (cfg.deny.map fromSpanned))) := by
      apply List.map_congr_left
      intro d _
      exact denyEmit_length cfg_file _ _ d
    rw [hpt, natSum_map_add, sum_hit_indicator cfg.deny cfg.allow h₂,
      sum_hit_indicator cfg.deny cfg.skip h₃]
  have hallow :
      (List.map (List.length ∘
          allowEmit cfg_file (List.insertionSort skrateLEP (cfg.skip.map fromSpanned)))
        (List.insertionSort skrateLEP (cfg.allow.map fromSpanned))).sum =
      conflictPairs cfg.allow cfg.skip := by
    have hpt : (List.map (List.length ∘
          allowEmit cfg_file (List.insertionSort skrateLEP (cfg.skip.map fromSpanned)))
        (List.insertionSort skrateLEP (cfg.allow.map fromSpanned))) =
        (List.map (fun a =>
          if (binary_search (List.insertionSort skrateLEP (cfg.skip.map fromSpanned))
            a).isSome then 1 else 0)
        (List.insertionSort skrateLEP (cfg.allow.map fromSpanned))) := by
      apply List.map_congr_left
      intro a _
      exact allowEmit_length cfg_file _ a
    rw [hpt, sum_hit_indicator cfg.allow cfg.skip h₃]
  rw [hdeny, hallow]

theorem conflictPairs_pos_iff (l₁ l₂ : List (Spanned CrateId)) :
    0 < conflictPairs l₁ l₂ ↔ hasConflict l₁ l₂ := by
  unfold conflictPairs hasConflict
  rw [Nat.pos_iff_ne_zero]
  rw [Ne, natSum_eq_zero_iff]
  constructor
  · intro h
    push_neg at h
    obtain ⟨c, hc, hcne⟩ := h
    obtain ⟨x, hx, rfl⟩ := List.mem_map.mp hc
    have : 0 < l₂.countP (fun y => decide (idOf y = idOf x)) := by omega
    obtain ⟨y, hy, hyx⟩ := List.countP_pos_iff.mp this
    exact ⟨x, hx, y, hy, (of_decide_eq_true hyx).symm⟩
  · rintro ⟨x, hx, y, hy, hxy⟩ hall
    have hc := hall (l₂.countP (fun y => decide (idOf y = idOf x)))
      (List.mem_map_of_mem _ hx)
    have : 0 < l₂.countP (fun z => decide (idOf z = idOf x)) :=
      List.countP_pos_iff.mpr ⟨y, hy, decide_eq_true hxy.symm⟩
    omega

/-- Claim C2 (amended): with each of the allow and skip lists carrying at
most one entry per crate identity, `validate` errs exactly when some crate
identity appears in two mutually exclusive categories; the error then holds
one diagnostic per conflicting pair (collected across all three passes, with
no short-circuit) and is never empty, and no `ValidConfig` is produced; on
success the returned `ValidConfig` is fully populated from the raw config.
Without the duplicate-freedom proviso, a duplicated identity in the searched
list yields a single diagnostic for its searching entry even though it forms
several conflicting pairs. -/
theorem claim_c2_validate_conflicts (cfg : Config) (cfg_file : Nat)
    (h₂ : (cfg.allow.map idOf).Nodup) (h₃ : (cfg.skip.map idOf).Nodup) :
    ((hasConflict cfg.deny cfg.allow ∨ hasConflict cfg.deny cfg.skip ∨
        hasConflict cfg.allow cfg.skip) ↔
      ∃ ds, cfg.validate cfg_file = Except.error ds) ∧
    (∀ ds, cfg.validate cfg_file = Except.error ds →
      ds ≠ [] ∧ ds.length = conflictPairs cfg.deny cfg.allow +
        conflictPairs cfg.deny cfg.skip + conflictPairs cfg.allow cfg.skip) ∧
    (∀ vc, cfg.validate cfg_file = Except.ok vc →
      vc = ⟨cfg_file, cfg.multiple_versions, cfg.highlight,
        List.insertionSort skrateLEP (cfg.deny.map fromSpanned),
        List.insertionSort skrateLEP (cfg.allow.map fromSpanned),
        List.insertionSort skrateLEP (cfg.skip.map fromSpanned), cfg.skip_tree⟩) := by
  have hlen := validateDiags_length cfg cfg_file h₂ h₃
  have hiff_len : validateDiags cfg cfg_file ≠ [] ↔
      (hasConflict cfg.deny cfg.allow ∨ hasConflict cfg.deny cfg.skip ∨
        hasConflict cfg.allow cfg.skip) := by
    constructor
    · intro hne
      have hpos : 0 < (validateDiags cfg cfg_file).length := List.length_pos_of_ne_nil hne
      rw [hlen] at hpos
      have : 0 < conflictPairs cfg.deny cfg.allow ∨ 0 < conflictPairs cfg.deny cfg.skip ∨
          0 < conflictPairs cfg.allow cfg.skip := by omega
      rcases this with h | h | h
      · exact Or.inl ((conflictPairs_pos_iff _ _).mp h)
      · exact Or.inr (Or.inl ((conflictPairs_pos_iff _ _).mp h))
      · exact Or.inr (Or.inr ((conflictPairs_pos_iff _ _).mp h))
    · intro hdisj
      have hpos : 0 < (validateDiags cfg cfg_file).length := by
        rw [hlen]
        rcases hdisj with h | h | h
        · have := (conflictPairs_pos_iff _ _).mpr h
          omega
        · have := (conflictPairs_pos_iff _ _).mpr h
          omega
        · have := (conflictPairs_pos_iff _ _).mpr h
          omega
      exact List.ne_nil_of_length_pos hpos
  refine ⟨?_, ?_, fun vc h => validate_ok_inversion cfg cfg_file vc h⟩
  · rw [validate_eq]
    by_cases hnil : validateDiags cfg cfg_file = []
    · rw [hnil]
      simp only [List.isEmpty_nil, if_true]
      constructor
      · intro hdisj
        exact absurd hnil (hiff_len.mpr hdisj)
      · rintro ⟨ds, hds⟩
        cases hds
    · have hempty : (validateDiags cfg cfg_file).isEmpty = false := by
        cases hval : validateDiags cfg cfg_file
        · exact absurd hval hnil
        · rfl
      rw [hempty]
      simp only [Bool.false_eq_true, if_false]
      exact ⟨fun _ => ⟨validateDiags cfg cfg_file, rfl⟩, fun _ => hiff_len.mp hnil⟩
  · intro ds hds
    rw [validate_eq] at hds
    split at hds
    · cases hds
    · rename_i hne
      injection hds with h'
      subst h'
      refine ⟨?_, hlen⟩
      intro hnil
      rw [hnil] at hne
      exact hne rfl

/-- Witness for claim C2's amended theorem at a concrete config carrying one
deny/allow conflict. -/
theorem claim_c2_validate_conflicts_witness :
    ((cfgConflict.allow.map idOf).Nodup ∧ (cfgConflict.skip.map idOf).Nodup) ∧
    (((hasConflict cfgConflict.deny cfgConflict.allow ∨
        hasConflict cfgConflict.deny cfgConflict.skip ∨
        hasConflict cfgConflict.allow cfgConflict.skip) ↔
      ∃ ds, cfgConflict.validate 0 = Except.error ds) ∧
    (∀ ds, cfgConflict.validate 0 = Except.error ds →
      ds ≠ [] ∧ ds.length = conflictPairs cfgConflict.deny cfgConflict.allow +
        conflictPairs cfgConflict.deny cfgConflict.skip +
        conflictPairs cfgConflict.allow cfgConflict.skip) ∧
    (∀ vc, cfgConflict.validate 0 = Except.ok vc →
      vc = ⟨0, cfgConflict.multiple_versions, cfgConflict.highlight,
        List.insertionSort skrateLEP (cfgConflict.deny.map fromSpanned),
        List.insertionSort skrateLEP (cfgConflict.allow.map fromSpanned),
        List.insertionSort skrateLEP (cfgConflict.skip.map fromSpanned),
        cfgConflict.skip_tree⟩)) :=
  ⟨⟨by decide, by decide⟩,
   claim_c2_validate_conflicts cfgConflict 0 (by decide) (by decide)⟩

/-- Counterexample to claim C2 as stated: with the same identity allowed
twice and denied once there are two conflicting pairs, but the binary-search
pass emits a single diagnostic for the denied entry. -/
theorem claim_c2_counterexample :
    conflictPairs cfgDupAllow.deny cfgDupAllow.allow +
      conflictPairs cfgDupAllow.deny cfgDupAllow.skip +
      conflictPairs cfgDupAllow.allow cfgDupAllow.skip = 2 ∧
    (∃ ds, Config.validate cfgDupAllow 0 = Except.error ds ∧ ds.length = 1) :=
  ⟨by decide, ⟨validateDiags cfgDupAllow 0, by decide, by decide⟩⟩

/-! ### Claims C3, C9 and C4: the dependency grapher -/

theorem write_parents_mono {n : Nat}
    (step : NodePrint n → String → Finset (Fin n) → List Bool →
      Option (String × Finset (Fin n)))
    (hstep : ∀ p o v l r, step p o v l = some r → v ⊆ r.2) :
    ∀ ps o v l r, write_parents step ps o v l = some r → v ⊆ r.2
  | [], o, v, l, r => by
    intro h
    unfold write_parents at h
    injection h with h'
    rw [← h']
  | p :: rest, o, v, l, r => by
    intro h
    unfold write_parents at h
    cases hstep' : step p o v (l ++ [!rest.isEmpty]) with
    | none =>
      rw [hstep'] at h
      cases h
    | some r' =>
      rw [hstep'] at h
      exact (hstep p o v _ r' hstep').trans
        (write_parents_mono step hstep rest r'.1 r'.2 l r h)

theorem write_parent_mono {n : Nat} (g : Krates n) :
    ∀ (fuel : Nat) (np : NodePrint n) o v l r,
      write_parent g fuel np o v l = some r → v ⊆ r.2
  | 0, np, o, v, l, r => by
    intro h
    cases h
  | fuel + 1, np, o, v, l, r => by
    intro h
    unfold write_parent at h
    split at h
    · injection h with h'
      rw [← h']
    · refine Finset.Subset.trans (Finset.subset_insert np.id v) ?_
      exact write_parents_mono _ (fun p o' v' l' r' h' => write_parent_mono g fuel p o' v' l' r' h')
        (gatherParents g np.id) _ _ l r h

theorem write_parents_isSome {n : Nat} (bound : Nat)
    (step : NodePrint n → String → Finset (Fin n) → List Bool →
      Option (String × Finset (Fin n)))
    (hmono : ∀ p o v l r, step p o v l = some r → v ⊆ r.2)
    (hsome : ∀ (p : NodePrint n) o (v : Finset (Fin n)) l,
      n - v.card < bound → (step p o v l).isSome = true) :
    ∀ (ps : List (NodePrint n)) o (v : Finset (Fin n)) l,
      n - v.card < bound → (write_parents step ps o v l).isSome = true
  | [], o, v, l => by
    intro _
    rfl
  | p :: rest, o, v, l => by
    intro hc
    unfold write_parents
    obtain ⟨r', hr'⟩ := Option.isSome_iff_exists.mp (hsome p o v (l ++ [!rest.isEmpty]) hc)
    rw [hr']
    have hsub := hmono p o v _ r' hr'
    have hcard : v.card ≤ r'.2.card := Finset.card_le_card hsub
    exact write_parents_isSome bound step hmono hsome rest r'.1 r'.2 l (by omega)

theorem write_parent_isSome {n : Nat} (g : Krates n) :
    ∀ (fuel : Nat) (v : Finset (Fin n)), n - v.card < fuel →
      ∀ (np : NodePrint n) o l, (write_parent g fuel np o v l).isSome = true
  | 0, v => by
    intro hc
    omega
  | fuel + 1, v => by
    intro hc np o l
    unfold write_parent
    split
    · rfl
    · rename_i hmem
      have hcard : (insert np.id v).card = v.card + 1 := Finset.card_insert_of_not_mem hmem
      have hle : (insert np.id v).card ≤ n := by
        have := Finset.card_le_univ (insert np.id v)
        simpa using this
      exact write_parents_isSome fuel _
        (fun p o' v' l' r' h' => write_parent_mono g fuel p o' v' l' r' h')
        (fun p o' v' l' hc' => write_parent_isSome g fuel v' hc' p o' l')
        (gatherParents g np.id) _ _ l (by omega)

theorem labelLine_length_pos (k : Krate) (kind star : String) :
    0 < (labelLine k kind star).length := by
  have h1 : ∀ s : String, 0 < (s ++ "\n").length := by
    intro s
    rw [String.length_append]
    have h2 : ("\n" : String).length = 1 := rfl
    omega
  unfold labelLine
  split <;> apply h1

theorem write_parents_out_le {n : Nat}
    (step : NodePrint n → String → Finset (Fin n) → List Bool →
      Option (String × Finset (Fin n)))
    (hstep : ∀ p o v l r, step p o v l = some r → o.length ≤ r.1.length) :
    ∀ ps o v l r, write_parents step ps o v l = some r → o.length ≤ r.1.length
  | [], o, v, l, r => by
    intro h
    unfold write_parents at h
    injection h with h'
    rw [← h']
  | p :: rest, o, v, l, r => by
    intro h
    unfold write_parents at h
    cases hstep' : step p o v (l ++ [!rest.isEmpty]) with
    | none =>
      rw [hstep'] at h
      cases h
    | some r' =>
      rw [hstep'] at h
      exact (hstep p o v _ r' hstep').trans
        (write_parents_out_le step hstep rest r'.1 r'.2 l r h)

theorem write_parent_out_lt {n : Nat} (g : Krates n) :
    ∀ (fuel : Nat) (np : NodePrint n) o v l r,
      write_parent g fuel np o v l = some r → o.length < r.1.length
  | 0, np, o, v, l, r => by
    intro h
    cases h
  | fuel + 1, np, o, v, l, r => by
    intro h
    unfold write_parent at h
    have hgrow : ∀ star : String,
        o.length < (o ++ levelPrefix l ++ labelLine np.krate np.kind star).length := by
      intro star
      have := labelLine_length_pos np.krate np.kind star
      simp [String.length_append]
      omega
    split at h
    · injection h with h'
      rw [← h']
      exact hgrow " (*)"
    · have hle := write_parents_out_le _
        (fun p o' v' l' r' h' => le_of_lt (write_parent_out_lt g fuel p o' v' l' r' h'))
        (gatherParents g np.id) _ _ l r h
      exact lt_of_lt_of_le (hgrow "") hle

/-- Claim C3: `write_graph` terminates on every graph — in the fuel
embedding, fuel `n + 1` never runs out, so the fuel-exhaustion error is
unreachable (in particular on graphs with consumer cycles reachable from the
target) — and a node reached a second time is printed only as its label line
suffixed with the revisit marker, with the visited set unchanged and its
consumers not expanded again; together with the strict growth of the visited
set before every expansion this bounds each node to at most one full
expansion. -/
theorem claim_c3_termination_and_revisit {n : Nat} (g : Krates n) :
    (∀ kid, write_graph g kid ≠ Except.error GraphError.fuelExhausted) ∧
    (∀ (fuel : Nat) (np : NodePrint n) (out : String) (visited : Finset (Fin n))
        (levels : List Bool), np.id ∈ visited →
      write_parent g (fuel + 1) np out visited levels =
        some (out ++ levelPrefix levels ++ labelLine np.krate np.kind " (*)", visited)) := by
  constructor
  · intro kid
    unfold write_graph
    cases hnid : nidForKid g kid with
    | none =>
      intro h
      cases h
    | some node_id =>
      dsimp only
      have hsome := write_parent_isSome g (n + 1) ∅ (by simp)
        ⟨g.krate node_id, node_id, ""⟩ "" []
      obtain ⟨r, hr⟩ := Option.isSome_iff_exists.mp hsome
      rw [hr]
      intro h
      cases h
  · intro fuel np out visited levels hmem
    unfold write_parent
    rw [if_pos hmem]

/-- Witness for claim C3 at a concrete two-node cyclic graph. -/
theorem claim_c3_termination_and_revisit_witness :
    ((0 : Fin 2) ∈ ({0} : Finset (Fin 2))) ∧
    write_graph egCycle "A" ≠ Except.error GraphError.fuelExhausted ∧
    write_parent egCycle 1 ⟨egCycle.krate 0, 0, ""⟩ "" {0} [] =
      some ("" ++ levelPrefix [] ++ labelLine (egCycle.krate 0) "" " (*)", {0}) :=
  ⟨by decide,
   (claim_c3_termination_and_revisit egCycle).1 "A",
   (claim_c3_termination_and_revisit egCycle).2 0 ⟨egCycle.krate 0, 0, ""⟩ "" {0} []
     (by decide)⟩

/-- Claim C9: querying a crate id with no corresponding graph node yields the
typed lookup failure (never the fuel artifact, never a panic — the embedding
is total), and a successful render is never the empty string. -/
theorem claim_c9_lookup_failure {n : Nat} (g : Krates n) (kid : Kid) :
    (nidForKid g kid = none → write_graph g kid = Except.error GraphError.lookupFailure) ∧
    (∀ s, write_graph g kid = Except.ok s → s ≠ "") := by
  constructor
  · intro h
    unfold write_graph
    rw [h]
  · intro s hs
    unfold write_graph at hs
    cases hnid : nidForKid g kid with
    | none =>
      rw [hnid] at hs
      cases hs
    | some node_id =>
      rw [hnid] at hs
      dsimp only at hs
      cases hw : write_parent g (n + 1) ⟨g.krate node_id, node_id, ""⟩ "" ∅ [] with
      | none =>
        rw [hw] at hs
        cases hs
      | some r =>
        rw [hw] at hs
        injection hs with hs'
        have hlt := write_parent_out_lt g (n + 1) ⟨g.krate node_id, node_id, ""⟩ "" ∅ [] r hw
        intro hempty
        rw [hs', hempty] at hlt
        simp at hlt

/-- Witness for claim C9: a concrete graph with an absent crate id, plus a
successful render that is non-empty. -/
theorem claim_c9_lookup_failure_witness :
    nidForKid egCycle "Z" = none ∧
    write_graph egCycle "Z" = Except.error GraphError.lookupFailure ∧
    write_graph egCycle "A" = Except.ok "a v1\n└── b v1\n    └── a v1 (*)\n" ∧
    ("a v1\n└── b v1\n    └── a v1 (*)\n" : String) ≠ "" :=
  ⟨by decide,
   (claim_c9_lookup_failure egCycle "Z").1 (by decide),
   by decide,
   (claim_c9_lookup_failure egCycle "A").2 "a v1\n└── b v1\n    └── a v1 (*)\n" (by decide)⟩

theorem strLe_total (a b : String) : strLe a b ∨ strLe b a := by
  unfold strLe
  cases h : strLtb a.data b.data with
  | true => exact Or.inl (strLtb_asymm a.data b.data h)
  | false => exact Or.inr rfl

theorem strLe_antisymm_eq {a b : String} (h₁ : strLe a b) (h₂ : strLe b a) : a = b := by
  unfold strLe at h₁ h₂
  have hd := strLtb_antisymm a.data b.data h₂ h₁
  cases a
  cases b
  exact congrArg String.mk hd

theorem strLe_trans {a b c : String} (h₁ : strLe a b) (h₂ : strLe b c) : strLe a c := by
  unfold strLe at h₁ h₂ ⊢
  cases hca : strLtb c.data a.data with
  | false => rfl
  | true =>
    exfalso
    cases hab : strLtb a.data b.data with
    | true =>
      have := strLtb_trans c.data a.data b.data hca hab
      rw [this] at h₂
      cases h₂
    | false =>
      have hba : a.data = b.data := strLtb_antisymm a.data b.data hab h₁
      rw [hba] at hca
      rw [hca] at h₂
      cases h₂

theorem sorted_key_perm_eq {α : Type} (key : α → String) :
    ∀ (l₁ l₂ : List α), l₁.Perm l₂ → (l₁.map key).Nodup →
      l₁.Pairwise (fun a b => strLe (key a) (key b)) →
      l₂.Pairwise (fun a b => strLe (key a) (key b)) → l₁ = l₂
  | [], l₂ => by
    intro hperm _ _ _
    exact (hperm.nil_eq).symm ▸ rfl
  | a :: t₁, l₂ => by
    intro hperm hnd hs₁ hs₂
    cases l₂ with
    | nil => exact absurd hperm.symm.nil_eq (by simp)
    | cons b t₂ =>
      have hab : a = b := by
        have hamem : a ∈ b :: t₂ := hperm.mem_iff.mp (List.mem_cons_self a t₁)
        rcases List.mem_cons.mp hamem with heq | hat₂
        · exact heq
        · have hbmem : b ∈ a :: t₁ := hperm.symm.mem_iff.mp (List.mem_cons_self b t₂)
          rcases List.mem_cons.mp hbmem with heq | hbt₁
          · exact heq.symm
          · have hle₁ : strLe (key a) (key b) := (List.pairwise_cons.mp hs₁).1 b hbt₁
            have hle₂ : strLe (key b) (key a) := (List.pairwise_cons.mp hs₂).1 a hat₂
            have hkey : key a = key b := strLe_antisymm_eq hle₁ hle₂
            exfalso
            simp only [List.map_cons, List.nodup_cons] at hnd
            apply hnd.1
            rw [hkey]
            exact List.mem_map_of_mem key hbt₁
      subst hab
      have htail : t₁ = t₂ := by
        refine sorted_key_perm_eq key t₁ t₂ (hperm.cons_inv) ?_
          (List.pairwise_cons.mp hs₁).2 (List.pairwise_cons.mp hs₂).2
        simp only [List.map_cons, List.nodup_cons] at hnd
        exact hnd.2
      rw [htail]

theorem gatherParents_eq {n : Nat} (g₁ g₂ : Krates n) (hk : g₁.krate = g₂.krate)
    (hperm : ∀ i, (g₁.incoming i).Perm (g₂.incoming i))
    (hnd : ∀ i, ((g₁.incoming i).map (fun e => (g₁.krate e.1).id)).Nodup)
    (i : Fin n) : gatherParents g₁ i = gatherParents g₂ i := by
  haveI htot : IsTotal (NodePrint n) nodeLE := ⟨fun a b => strLe_total a.krate.id b.krate.id⟩
  haveI htr : IsTrans (NodePrint n) nodeLE := ⟨fun _ _ _ h₁ h₂ => strLe_trans h₁ h₂⟩
  unfold gatherParents
  rw [hk]
  apply sorted_key_perm_eq (fun p : NodePrint n => p.krate.id)
  · exact ((List.perm_insertionSort nodeLE _).trans
      ((hperm i).map _)).trans (List.perm_insertionSort nodeLE _).symm
  · refine ((List.perm_insertionSort nodeLE _).map
      (fun p : NodePrint n => p.krate.id)).symm.nodup ?_
    rw [List.map_map]
    have hnd' := hnd i
    rw [hk] at hnd'
    simpa [Function.comp] using hnd' 
  · exact List.sorted_insertionSort nodeLE _
  · exact List.sorted_insertionSort nodeLE _

theorem write_parent_congr {n : Nat} (g₁ g₂ : Krates n) (hk : g₁.krate = g₂.krate)
    (hperm : ∀ i, (g₁.incoming i).Perm (g₂.incoming i))
    (hnd : ∀ i, ((g₁.incoming i).map (fun e => (g₁.krate e.1).id)).Nodup) :
    ∀ (fuel : Nat) (np : NodePrint n) out visited levels,
      write_parent g₁ fuel np out visited levels = write_parent g₂ fuel np out visited levels
  | 0, np, out, visited, levels => rfl
  | fuel + 1, np, out, visited, levels => by
    unfold write_parent
    by_cases hmem : np.id ∈ visited
    · rw [if_pos hmem, if_pos hmem]
    · rw [if_neg hmem, if_neg hmem]
      rw [gatherParents_eq g₁ g₂ hk hperm hnd np.id]
      have hstep : (fun (p : NodePrint n) o v l => write_parent g₁ fuel p o v l) =
          (fun (p : NodePrint n) o v l => write_parent g₂ fuel p o v l) := by
        funext p o v l
        exact write_parent_congr g₁ g₂ hk hperm hnd fuel p o v l
      rw [hstep]

/-- Claim C4 (amended): `write_graph` is independent of the order in which
the graph enumerates a node's incoming edges, provided no node has two
incoming edges whose consumers carry the same crate id — the gathered
consumers are sorted by crate id before printing and recursing, and with
distinct keys the sort ties cannot leak the enumeration order.  With
duplicate consumer keys (e.g. the same crate depending on the target both
normally and as a build dependency), the stable sort preserves enumeration
order among the tied entries and the output can differ. -/
theorem claim_c4_determinism {n : Nat} (g₁ g₂ : Krates n) (hk : g₁.krate = g₂.krate)
    (hperm : ∀ i, (g₁.incoming i).Perm (g₂.incoming i))
    (hnd : ∀ i, ((g₁.incoming i).map (fun e => (g₁.krate e.1).id)).Nodup)
    (kid : Kid) : write_graph g₁ kid = write_graph g₂ kid := by
  unfold write_graph nidForKid
  rw [hk]
  cases hfind : (List.finRange n).find? (fun i => decide ((g₂.krate i).id = kid)) with
  | none => rfl
  | some node_id =>
    dsimp only
    rw [write_parent_congr g₁ g₂ hk hperm hnd (n + 1) ⟨g₂.krate node_id, node_id, ""⟩ "" ∅ []]

/-- Witness for claim C4's amended theorem: two enumerations of the same
snapshot with distinct consumers render identically. -/
theorem claim_c4_determinism_witness :
    (egC.krate = egD.krate ∧ (∀ i, (egC.incoming i).Perm (egD.incoming i)) ∧
      (∀ i, ((egC.incoming i).map (fun e => (egC.krate e.1).id)).Nodup)) ∧
    write_graph egC "T" = write_graph egD "T" :=
  ⟨⟨rfl, by decide, by decide⟩,
   claim_c4_determinism egC egD rfl (by decide) (by decide) "T"⟩

/-- Counterexample to claim C4 as stated: the same graph snapshot — the
target consumed twice by the same crate, once normally and once as a build
dependency — rendered under two edge-enumeration orders produces two
different strings. -/
theorem claim_c4_counterexample :
    egA.krate = egB.krate ∧
    (egA.incoming 0).Perm (egB.incoming 0) ∧ (egA.incoming 1).Perm (egB.incoming 1) ∧
    write_graph egA "T" = Except.ok "t v1\n├── p v1\n└── (build) p v1 (*)\n" ∧
    write_graph egB "T" = Except.ok "t v1\n├── (build) p v1\n└── p v1 (*)\n" ∧
    write_graph egA "T" ≠ write_graph egB "T" :=
  ⟨rfl, by decide, by decide, by decide, by decide, by decide⟩
